import Mathlib

/-!
# Verification of the rogue dungeon engine (src/index.js)

A shallow embedding of the grid roguelike implemented in `index.js`:
map generation, entity placement, and the turn engine (movement, combat,
enemy sweep).  JavaScript numbers are modelled as `Int` (all arithmetic in
the program is integral), the mutable `map` array as a function
`Int → Int → Tile`, and `Math.random`-driven draws as a stream of natural
numbers consumed left to right (`randomInt(min,max)` always lands in
`[min,max]`, which the model reproduces with a modulus).
-/

/-- Tile values, `TILE_EMPTY`/`TILE_WALL`/`TILE_SWORD`/`TILE_POTION` in the source. -/
inductive Tile where
  | empty
  | wall
  | sword
  | potion
deriving DecidableEq

def MAP_WIDTH : Int := 40
def MAP_HEIGHT : Int := 24

def SWORD_COUNT : Int := 1
def POTION_COUNT : Int := 2

def ROOM_MIN : Nat := 3
def ROOM_MAX : Nat := 8
def ROOM_COUNT_MIN : Nat := 5
def ROOM_COUNT_MAX : Nat := 10

def CORRIDOR_MIN : Nat := 3
def CORRIDOR_MAX : Nat := 5

def ENEMY_COUNT : Nat := 10
def ENEMY_HP : Int := 5
def ENEMY_ATTACK : Int := 1

def HERO_HP : Int := 10
def HERO_ATTACK : Int := 1

/-- The mutable 2D `map` array, indexed as `map y x` like `map[y][x]`. -/
abbrev Grid := Int → Int → Tile

/-- A point write `map[y][x] = t`. -/
def setT (g : Grid) (y x : Int) (t : Tile) : Grid :=
  fun y' x' => if y' = y ∧ x' = x then t else g y' x'

/-- The hero record `{ x, y, hp, maxHp, attack }`. -/
structure Hero where
  x : Int
  y : Int
  hp : Int
  maxHp : Int
  attack : Int
deriving DecidableEq

/-- An enemy record `{ x, y, hp, maxHp, attack, _justRetaliated }`. -/
structure Enemy where
  x : Int
  y : Int
  hp : Int
  maxHp : Int
  attack : Int
  justRetaliated : Bool
deriving DecidableEq

/-- The module-level mutable state of `index.js`: the map, the hero, the
enemy array, the HUD counters and the `_gameOver` / `_win` flags. -/
structure GameState where
  map : Grid
  hero : Hero
  enemies : List Enemy
  potionsCarried : Nat
  killed : Nat
  gameOver : Bool
  win : Bool

/-- `randomInt(min,max)` returns an integer uniformly in `[min,max]`; the
model takes the raw draw `r` and folds it into the interval. -/
def randInt (lo hi r : Nat) : Nat := lo + r % (hi + 1 - lo)

/-- Pop the next raw draw off the random stream (0 if exhausted). -/
def takeRand (rng : List Nat) : Nat × List Nat :=
  match rng with
  | [] => (0, [])
  | r :: rest => (r, rest)

/-- The x wrap-around in `attemptMove`/`updateEnemies`:
`if (nx < 0) nx = MAP_WIDTH - 1; if (nx >= MAP_WIDTH) nx = 0;`. -/
def wrapX (n : Int) : Int :=
  if n < 0 then MAP_WIDTH - 1 else if MAP_WIDTH ≤ n then 0 else n

/-- The y wrap-around, `MAP_HEIGHT` version of `wrapX`. -/
def wrapY (n : Int) : Int :=
  if n < 0 then MAP_HEIGHT - 1 else if MAP_HEIGHT ≤ n then 0 else n

/-- The four orthogonal offsets used by `adjacentEnemyDamage` and
`heroAttack` (`[{dx:-1,dy:0},{dx:1,dy:0},{dx:0,dy:-1},{dx:0,dy:1}]`). -/
def dirs : List (Int × Int) := [(-1, 0), (1, 0), (0, -1), (0, 1)]

/-- `endGame()`: clamp the hero to 0 hp and freeze the game as lost. -/
def endGame (s : GameState) : GameState :=
  { s with hero := { s.hero with hp := 0 }, gameOver := true, win := false }

/-- `win()`: freeze the game as won. -/
def winGame (s : GameState) : GameState :=
  { s with gameOver := true, win := true }

/-- `checkPickup()`: on a potion tile heal by `POTION_COUNT` clamped to
`maxHp` and clear the tile; on a sword tile add `SWORD_COUNT` to attack and
clear the tile. -/
def checkPickup (s : GameState) : GameState :=
  let t := s.map s.hero.y s.hero.x
  if t = Tile.potion then
    { s with potionsCarried := s.potionsCarried + 1,
             hero := { s.hero with hp := min s.hero.maxHp (s.hero.hp + POTION_COUNT) },
             map := setT s.map s.hero.y s.hero.x Tile.empty }
  else if t = Tile.sword then
    { s with hero := { s.hero with attack := s.hero.attack + SWORD_COUNT },
             map := setT s.map s.hero.y s.hero.x Tile.empty }
  else s

/-- One direction of the `dirs.forEach` in `adjacentEnemyDamage`: if an
enemy sits on the neighbour cell, the hero takes its attack. -/
def adjDamageStep (s : GameState) (d : Int × Int) : GameState :=
  match s.enemies.find? (fun e => e.x == s.hero.x + d.1 && e.y == s.hero.y + d.2) with
  | some en => { s with hero := { s.hero with hp := s.hero.hp - en.attack } }
  | none => s

/-- The `dirs.forEach` loop of `adjacentEnemyDamage()`. -/
def adjLoop (s : GameState) : GameState := dirs.foldl adjDamageStep s

/-- `adjacentEnemyDamage()`: every enemy on one of the 4 orthogonal
neighbours of the hero strikes once; then `endGame` if hp dropped to 0. -/
def adjacentEnemyDamage (s : GameState) : GameState :=
  if (adjLoop s).hero.hp ≤ 0 then endGame (adjLoop s) else adjLoop s

/-- `attemptMove(dx,dy)`: wrap the candidate cell, abort on a wall or an
enemy, otherwise commit the move, resolve pickups and adjacency damage. -/
def attemptMove (dx dy : Int) (s : GameState) : GameState :=
  let nx := wrapX (s.hero.x + dx)
  let ny := wrapY (s.hero.y + dy)
  if s.map ny nx = Tile.wall then s
  else if s.enemies.any (fun e => e.x == nx && e.y == ny) then s
  else
    adjacentEnemyDamage (checkPickup { s with hero := { s.hero with x := nx, y := ny } })

/-- `en.hp -= hero.attack` on a surviving enemy, together with the
`_justRetaliated = true` mark. -/
def struck (atk : Int) (e : Enemy) : Enemy :=
  { e with hp := e.hp - atk, justRetaliated := true }

/-- One direction of the `dirs.forEach` in `heroAttack()`, acting on the
enemy array: `findIndex` the enemy on the target cell; damage it; a
survivor is flagged `justRetaliated` and its attack is reported back, a
dead enemy is spliced out and reported as one kill.  Returns the new enemy
list, the retaliation damage, and the kill increment. -/
def hitAt (atk tx ty : Int) : List Enemy → List Enemy × Int × Nat
  | [] => ([], 0, 0)
  | e :: rest =>
    if e.x = tx ∧ e.y = ty then
      if 0 < e.hp - atk then (struck atk e :: rest, e.attack, 0)
      else (rest, 0, 1)
    else
      (e :: (hitAt atk tx ty rest).1, (hitAt atk tx ty rest).2)

/-- One `dirs.forEach` iteration of `heroAttack()` lifted to the game
state: apply `hitAt` on the neighbour cell, subtract the retaliation from
the hero and add the kill to `killed`. -/
def attackStep (s : GameState) (d : Int × Int) : GameState :=
  { s with
    enemies := (hitAt s.hero.attack (s.hero.x + d.1) (s.hero.y + d.2) s.enemies).1,
    hero := { s.hero with
      hp := s.hero.hp - (hitAt s.hero.attack (s.hero.x + d.1) (s.hero.y + d.2) s.enemies).2.1 },
    killed := s.killed + (hitAt s.hero.attack (s.hero.x + d.1) (s.hero.y + d.2) s.enemies).2.2 }

/-- The `dirs.forEach` loop of `heroAttack()`. -/
def attackLoop (s : GameState) : GameState := dirs.foldl attackStep s

/-- `heroAttack()`: process all four neighbour cells, then check victory
(`enemies.length === 0 || killed >= ENEMY_COUNT`) before defeat
(`hero.hp <= 0`). -/
def heroAttack (s : GameState) : GameState :=
  if (attackLoop s).enemies.length = 0 ∨ ENEMY_COUNT ≤ (attackLoop s).killed then
    winGame (attackLoop s)
  else if (attackLoop s).hero.hp ≤ 0 then endGame (attackLoop s)
  else attackLoop s

/-- The target cells of a list of attack directions, based at the hero
(no wrap-around). -/
def stepCells (h : Hero) (ds : List (Int × Int)) : List (Int × Int) :=
  ds.map fun d => (h.x + d.1, h.y + d.2)

/-- The four orthogonal neighbour cells of the hero (no wrap-around). -/
def neighborCells (h : Hero) : List (Int × Int) :=
  stepCells h dirs

/-- Whether enemy `e` stands on cell `c`. -/
def atCell (e : Enemy) (c : Int × Int) : Bool := e.x == c.1 && e.y == c.2

/-- Whether enemy `e` stands on one of the cells `cs`. -/
def inCells (e : Enemy) (cs : List (Int × Int)) : Bool := cs.any (atCell e)

/-- Declarative rendering of the attack's effect on the enemy list, from
the spec: every enemy on an attacked cell takes `atk` damage; survivors
are flagged `justRetaliated`; the dead are removed; everyone else is
untouched. -/
def specEnemies (atk : Int) (cs : List (Int × Int)) (es : List Enemy) : List Enemy :=
  es.filterMap fun e =>
    if inCells e cs then
      if 0 < e.hp - atk then some (struck atk e)
      else none
    else some e

/-- Declarative total retaliation damage: the sum of the attacks of the
surviving enemies on attacked cells. -/
def specRetal (atk : Int) (cs : List (Int × Int)) (es : List Enemy) : Int :=
  ((es.filter fun e => inCells e cs && decide (0 < e.hp - atk)).map fun e => e.attack).sum

/-- Declarative kill count: the number of enemies on attacked cells whose
hp drops to 0 or below. -/
def specDead (atk : Int) (cs : List (Int × Int)) (es : List Enemy) : Nat :=
  (es.filter fun e => inCells e cs && decide (e.hp - atk ≤ 0)).length

/-- The Attack action as the spec describes it: damage every enemy on the
four orthogonal neighbour cells, survivors retaliate exactly once, the
dead are removed and counted, then the Won check precedes the Lost check. -/
def heroAttackSpecCore (s : GameState) : GameState :=
  { s with
    enemies := specEnemies s.hero.attack (neighborCells s.hero) s.enemies,
    hero := { s.hero with
      hp := s.hero.hp - specRetal s.hero.attack (neighborCells s.hero) s.enemies },
    killed := s.killed + specDead s.hero.attack (neighborCells s.hero) s.enemies }

/-- The terminal-phase checks following the declarative attack core: the
Won check strictly precedes the Lost check. -/
def heroAttackSpec (s : GameState) : GameState :=
  if (heroAttackSpecCore s).enemies.length = 0 ∨
      ENEMY_COUNT ≤ (heroAttackSpecCore s).killed then
    winGame (heroAttackSpecCore s)
  else if (heroAttackSpecCore s).hero.hp ≤ 0 then endGame (heroAttackSpecCore s)
  else heroAttackSpecCore s

/-- The positions of a list of enemies. -/
def posList (es : List Enemy) : List (Int × Int) := es.map fun e => (e.x, e.y)

/-- All enemy positions are pairwise distinct. -/
def posNodup (es : List Enemy) : Prop := (posList es).Nodup

/-- Grid with a single empty corridor row at `y = 5`, used for witnesses. -/
def rowGrid : Grid := fun y _ => if y = 5 then Tile.empty else Tile.wall

/-- The five options of the enemy random walk in `updateEnemies()`:
`[{dx:0,dy:0},{dx:-1,dy:0},{dx:1,dy:0},{dx:0,dy:-1},{dx:0,dy:1}]`. -/
def moves : List (Int × Int) := [(0, 0), (-1, 0), (1, 0), (0, -1), (0, 1)]

/-- `enemies.some((oth, idx) => idx !== skip && oth.x === nx && oth.y === ny)`;
`j` is the index of the first element of the list argument. -/
def someOtherAt : List Enemy → Nat → Nat → Int → Int → Bool
  | [], _, _, _, _ => false
  | e :: rest, j, skip, nx, ny =>
    (decide (j ≠ skip) && e.x == nx && e.y == ny) ||
      someOtherAt rest (j + 1) skip nx ny

/-- The orthogonal-adjacency test of `updateEnemies()`:
`(dx === 1 && dy === 0) || (dx === 0 && dy === 1)` on absolute deltas. -/
abbrev enemyAdjacent (e : Enemy) (h : Hero) : Prop :=
  ((e.x - h.x).natAbs = 1 ∧ (e.y - h.y).natAbs = 0) ∨
    ((e.x - h.x).natAbs = 0 ∧ (e.y - h.y).natAbs = 1)

/-- One iteration of the `for` loop in `updateEnemies()`, for the enemy at
index `i`: a flagged retaliator is unflagged and skipped; an adjacent
enemy strikes the hero (`endGame` halts the whole sweep if hp drops to 0);
anyone else picks a random step, committed only onto an empty tile that is
neither the hero's nor another enemy's.  Returns the new state, the
remaining random stream, and whether the sweep was halted. -/
def enemyTurnStep (s : GameState) (i : Nat) (rng : List Nat) :
    GameState × List Nat × Bool :=
  match s.enemies[i]? with
  | none => (s, rng, false)
  | some e =>
    if e.justRetaliated then
      ({ s with enemies := s.enemies.set i { e with justRetaliated := false } },
       rng, false)
    else if enemyAdjacent e s.hero then
      if s.hero.hp - e.attack ≤ 0 then
        (endGame { s with hero := { s.hero with hp := s.hero.hp - e.attack } },
         rng, true)
      else
        ({ s with hero := { s.hero with hp := s.hero.hp - e.attack } }, rng, false)
    else
      let rp := takeRand rng
      let mv := moves.getD (randInt 0 4 rp.1) (0, 0)
      let nx := wrapX (e.x + mv.1)
      let ny := wrapY (e.y + mv.2)
      if mv.1 ≠ 0 ∨ mv.2 ≠ 0 then
        if s.map ny nx = Tile.empty ∧ ¬(nx = s.hero.x ∧ ny = s.hero.y) ∧
            someOtherAt s.enemies 0 i nx ny = false then
          ({ s with enemies := s.enemies.set i { e with x := nx, y := ny } },
           rp.2, false)
        else (s, rp.2, false)
      else (s, rp.2, false)

/-- The `for` loop of `updateEnemies()`: process enemies in index order,
stop early only when a step reports that `endGame` ran. -/
def updateEnemiesAux : Nat → Nat → List Nat → GameState → GameState
  | 0, _, _, s => s
  | n + 1, i, rng, s =>
    if (enemyTurnStep s i rng).2.2 then (enemyTurnStep s i rng).1
    else updateEnemiesAux n (i + 1) (enemyTurnStep s i rng).2.1 (enemyTurnStep s i rng).1

/-- `updateEnemies()`: the sweep over all enemies (the array length never
changes during the sweep). -/
def updateEnemies (rng : List Nat) (s : GameState) : GameState :=
  updateEnemiesAux s.enemies.length 0 rng s

/-- The four movement directions of the `keyMap` in `handleInput`. -/
inductive Dir where
  | up
  | down
  | left
  | right

/-- The `[dx, dy]` pair the `keyMap` assigns to each direction key. -/
def Dir.delta : Dir → Int × Int
  | .up => (0, -1)
  | .down => (0, 1)
  | .left => (-1, 0)
  | .right => (1, 0)

/-- A player action: a movement key or the space (attack) key. -/
inductive PlayerAction where
  | move (d : Dir)
  | attack

/-- `handleInput`: ignore everything while `_gameOver`; otherwise resolve
the key (move or attack) and then always run the enemy sweep. -/
def handleInput (a : PlayerAction) (rng : List Nat) (s : GameState) : GameState :=
  if s.gameOver then s
  else
    match a with
    | .move d => updateEnemies rng (attemptMove d.delta.1 d.delta.2 s)
    | .attack => updateEnemies rng (heroAttack s)

/-- Grid with two empty corridor rows at `y = 5` and `y = 6`. -/
def twoRowGrid : Grid :=
  fun y _ => if y = 5 ∨ y = 6 then Tile.empty else Tile.wall

/-- A state about to lose: the hero has 1 hp and an enemy two tiles east;
a second, distant enemy sits in the other corridor row. -/
def sC2 : GameState :=
  { map := twoRowGrid,
    hero := { x := 5, y := 5, hp := 1, maxHp := 10, attack := 1 },
    enemies :=
      [{ x := 20, y := 6, hp := 5, maxHp := 5, attack := 1, justRetaliated := false },
       { x := 7, y := 5, hp := 5, maxHp := 5, attack := 1, justRetaliated := false }],
    potionsCarried := 0, killed := 8, gameOver := false, win := false }

/-- The effect of a skipped (just-retaliated) enemy turn: only the flag of
the enemy at index `i` is cleared. -/
def clearFlagAt (t : GameState) (i : Nat) (e : Enemy) : GameState :=
  { t with enemies := t.enemies.set i { e with justRetaliated := false } }

/-- A hero next to a single tough enemy (east), used as a witness state. -/
def sW : GameState :=
  { map := rowGrid,
    hero := { x := 3, y := 5, hp := 10, maxHp := 10, attack := 1 },
    enemies :=
      [{ x := 4, y := 5, hp := 5, maxHp := 5, attack := 2, justRetaliated := false }],
    potionsCarried := 0, killed := 9, gameOver := false, win := false }

/-- A hero on the west edge with a single enemy on the east edge of the
same row, used as a witness state. -/
def e9 : Enemy :=
  { x := 39, y := 7, hp := 5, maxHp := 5, attack := 1, justRetaliated := false }

/-- The state holding `e9` opposite the hero across the wrap seam. -/
def s9 : GameState :=
  { map := rowGrid,
    hero := { x := 0, y := 7, hp := 10, maxHp := 10, attack := 1 },
    enemies := [e9],
    potionsCarried := 0, killed := 9, gameOver := false, win := false }

/-- `generateMap()`: fill the whole grid with walls. -/
def generateMap : Grid := fun _ _ => Tile.wall

/-- A room record `{ x, y, w, h }`. -/
structure Room where
  x : Nat
  y : Nat
  w : Nat
  h : Nat

/-- The cells `(rx, ry)` visited by the nested carving loops of
`placeRooms()` for a room at `(x, y)` of size `w × h`. -/
def rectPoints (x y w h : Nat) : List (Nat × Nat) :=
  (List.range h).flatMap fun ry => (List.range w).map fun rx => (x + rx, y + ry)

/-- Carve a room interior to Empty (`map[ry][rx] = TILE_EMPTY`). -/
def carveRect (g : Grid) (x y w h : Nat) : Grid :=
  (rectPoints x y w h).foldl
    (fun g' p => setT g' (p.2 : Int) (p.1 : Int) Tile.empty) g

/-- One iteration of the room loop of `placeRooms()`: draw `w`, `h`, `x`,
`y` (in that order) and carve the room. -/
def placeRoom (g : Grid) (rng : List Nat) : Grid × Room × List Nat :=
  let rw := takeRand rng
  let w := randInt ROOM_MIN ROOM_MAX rw.1
  let rh := takeRand rw.2
  let h := randInt ROOM_MIN ROOM_MAX rh.1
  let rx := takeRand rh.2
  let x := randInt 1 (MAP_WIDTH.toNat - w - 2) rx.1
  let ry := takeRand rx.2
  let y := randInt 1 (MAP_HEIGHT.toNat - h - 2) ry.1
  (carveRect g x y w h, { x := x, y := y, w := w, h := h }, ry.2)

/-- The room loop of `placeRooms()`, accumulating the `rooms` array. -/
def placeRoomsAux : Nat → Grid → List Room → List Nat → Grid × List Room × List Nat
  | 0, g, rs, rng => (g, rs, rng)
  | n + 1, g, rs, rng =>
    placeRoomsAux n (placeRoom g rng).1 (rs ++ [(placeRoom g rng).2.1])
      (placeRoom g rng).2.2

/-- `placeRooms()`: draw the room count, then carve that many rooms. -/
def placeRooms (g : Grid) (rng : List Nat) : Grid × List Room × List Nat :=
  placeRoomsAux (randInt ROOM_COUNT_MIN ROOM_COUNT_MAX (takeRand rng).1) g []
    (takeRand rng).2

/-- Carve a horizontal run `map[y][x] = TILE_EMPTY` for `x` from
`min x1 x2` to `max x1 x2` inclusive. -/
def carveH (g : Grid) (y x1 x2 : Int) : Grid :=
  (List.range ((max x1 x2 - min x1 x2).toNat + 1)).foldl
    (fun g' i => setT g' y (min x1 x2 + i) Tile.empty) g

/-- Carve a vertical run `map[y][x] = TILE_EMPTY` for `y` from
`min y1 y2` to `max y1 y2` inclusive. -/
def carveV (g : Grid) (x y1 y2 : Int) : Grid :=
  (List.range ((max y1 y2 - min y1 y2).toNat + 1)).foldl
    (fun g' i => setT g' (min y1 y2 + i) x Tile.empty) g

/-- The L-shaped corridors between consecutive rooms in
`carveCorridors()`: a horizontal run at room A's centre row, then a
vertical run at room B's centre column. -/
def connectRooms : Grid → List Room → Grid
  | g, r1 :: r2 :: rest =>
    connectRooms
      (carveV
        (carveH g (r1.y + r1.h / 2 : Nat) (r1.x + r1.w / 2 : Nat)
          (r2.x + r2.w / 2 : Nat))
        (r2.x + r2.w / 2 : Nat) (r1.y + r1.h / 2 : Nat) (r2.y + r2.h / 2 : Nat))
      (r2 :: rest)
  | g, _ => g

/-- The full-width horizontal corridors of `carveCorridors()`. -/
def hCorridors : Nat → Grid → List Nat → Grid × List Nat
  | 0, g, rng => (g, rng)
  | n + 1, g, rng =>
    hCorridors n
      (carveH g (randInt 1 (MAP_HEIGHT.toNat - 2) (takeRand rng).1 : Nat) 0
        (MAP_WIDTH - 1))
      (takeRand rng).2

/-- The full-height vertical corridors of `carveCorridors()`. -/
def vCorridors : Nat → Grid → List Nat → Grid × List Nat
  | 0, g, rng => (g, rng)
  | n + 1, g, rng =>
    vCorridors n
      (carveV g (randInt 1 (MAP_WIDTH.toNat - 2) (takeRand rng).1 : Nat) 0
        (MAP_HEIGHT - 1))
      (takeRand rng).2

/-- `carveCorridors()`: L-corridors between consecutive rooms, then a
random number of full-width rows and full-height columns. -/
def carveCorridors (g : Grid) (rooms : List Room) (rng : List Nat) :
    Grid × List Nat :=
  let g1 := connectRooms g rooms
  let rh := takeRand rng
  let hC := randInt CORRIDOR_MIN CORRIDOR_MAX rh.1
  let rv := takeRand rh.2
  let vC := randInt CORRIDOR_MIN CORRIDOR_MAX rv.1
  let ph := hCorridors hC g1 rv.2
  vCorridors vC ph.1 ph.2

/-- `placeHero()`: reset the hero to defaults, then rejection-sample a
random empty tile (the source loop is unbounded, hence the fuel). -/
def placeHero (g : Grid) : Nat → List Nat → Option (Hero × List Nat)
  | 0, _ => none
  | fuel + 1, rng =>
    let rx := takeRand rng
    let x := randInt 0 (MAP_WIDTH.toNat - 1) rx.1
    let ry := takeRand rx.2
    let y := randInt 0 (MAP_HEIGHT.toNat - 1) ry.1
    if g (y : Int) (x : Int) = Tile.empty then
      some ({ x := (x : Int), y := (y : Int), hp := HERO_HP, maxHp := HERO_HP,
              attack := HERO_ATTACK }, ry.2)
    else placeHero g fuel ry.2

/-- One `while (placed < n)` loop of `placeItems()`: put `need` tiles of
kind `t` on random empty non-hero cells. -/
def placeLoop (t : Tile) (hx hy : Int) :
    Nat → Grid → Nat → List Nat → Option (Grid × List Nat)
  | 0, g, _, rng => some (g, rng)
  | _ + 1, _, 0, _ => none
  | need + 1, g, fuel + 1, rng =>
    let rx := takeRand rng
    let x := randInt 0 (MAP_WIDTH.toNat - 1) rx.1
    let ry := takeRand rx.2
    let y := randInt 0 (MAP_HEIGHT.toNat - 1) ry.1
    if g (y : Int) (x : Int) = Tile.empty ∧ ¬((x : Int) = hx ∧ (y : Int) = hy) then
      placeLoop t hx hy need (setT g (y : Int) (x : Int) t) fuel ry.2
    else placeLoop t hx hy (need + 1) g fuel ry.2

/-- `placeItems()`: the source hardcodes `while (placed < 2)` sword tiles
followed by `while (placed < 10)` potion tiles. -/
def placeItems (g : Grid) (hx hy : Int) (fuel : Nat) (rng : List Nat) :
    Option (Grid × List Nat) :=
  match placeLoop Tile.sword hx hy 2 g fuel rng with
  | none => none
  | some p => placeLoop Tile.potion hx hy 10 p.1 fuel p.2

/-- `enemies.some(e => e.x === x && e.y === y)`. -/
def enemyAt (es : List Enemy) (x y : Int) : Bool :=
  es.any fun e => e.x == x && e.y == y

/-- The `while (count < ENEMY_COUNT)` loop of `placeEnemies()`: each new
enemy needs an empty tile, distinct from the hero and from all previously
placed enemies. -/
def placeEnemiesLoop (g : Grid) (hx hy : Int) :
    Nat → List Enemy → Nat → List Nat → Option (List Enemy × List Nat)
  | 0, es, _, rng => some (es, rng)
  | _ + 1, _, 0, _ => none
  | need + 1, es, fuel + 1, rng =>
    let rx := takeRand rng
    let x := randInt 0 (MAP_WIDTH.toNat - 1) rx.1
    let ry := takeRand rx.2
    let y := randInt 0 (MAP_HEIGHT.toNat - 1) ry.1
    if g (y : Int) (x : Int) = Tile.empty ∧ ¬((x : Int) = hx ∧ (y : Int) = hy) ∧
        enemyAt es (x : Int) (y : Int) = false then
      placeEnemiesLoop g hx hy need
        (es ++ [{ x := (x : Int), y := (y : Int), hp := ENEMY_HP,
                  maxHp := ENEMY_HP, attack := ENEMY_ATTACK,
                  justRetaliated := false }]) fuel ry.2
    else placeEnemiesLoop g hx hy (need + 1) es fuel ry.2

/-- `placeEnemies()`: start from an empty array and place `ENEMY_COUNT`
enemies. -/
def placeEnemies (g : Grid) (hx hy : Int) (fuel : Nat) (rng : List Nat) :
    Option (List Enemy × List Nat) :=
  placeEnemiesLoop g hx hy ENEMY_COUNT [] fuel rng

/-- `init()` (its engine part): reset the counters and flags, generate the
map, carve rooms and corridors, then place the hero, the items and the
enemies. -/
def initGame (fuel : Nat) (rng : List Nat) : Option GameState :=
  let pr := placeRooms generateMap rng
  let pc := carveCorridors pr.1 pr.2.1 pr.2.2
  match placeHero pc.1 fuel pc.2 with
  | none => none
  | some ph =>
    match placeItems pc.1 ph.1.x ph.1.y fuel ph.2 with
    | none => none
    | some pi =>
      match placeEnemies pi.1 ph.1.x ph.1.y fuel pi.2 with
      | none => none
      | some pe =>
        some { map := pi.1, hero := ph.1, enemies := pe.1,
               potionsCarried := 0, killed := 0, gameOver := false, win := false }

/-- The number of grid cells holding tile `t`. -/
def tileCount (g : Grid) (t : Tile) : Nat :=
  (Finset.filter (fun p : Nat × Nat => g (p.1 : Int) (p.2 : Int) = t)
    (Finset.product (Finset.range MAP_HEIGHT.toNat)
      (Finset.range MAP_WIDTH.toNat))).card

/-- All-empty grid, used as a placement witness input. -/
def gC1 : Grid := fun _ _ => Tile.empty

/-- Random stream steering item placement onto `(1,0) … (12,0)`. -/
def rngC1 : List Nat :=
  [1, 0, 2, 0, 3, 0, 4, 0, 5, 0, 6, 0, 7, 0, 8, 0, 9, 0, 10, 0, 11, 0, 12, 0]

/-- The result of the witness item placement on `gC1`. -/
def pC1 : Grid × List Nat := (placeItems gC1 0 0 20 rngC1).getD (gC1, [])

/-- The state invariant that every action preserves, without the flag
clause: hero hp in `[0, maxHp]`, exact kill accounting, non-negative enemy
attacks, hp pinned to 0 on a lost game, and pairwise-distinct enemy
positions. -/
def CoreInv (s : GameState) : Prop :=
  0 ≤ s.hero.hp ∧ s.hero.hp ≤ s.hero.maxHp ∧
  s.killed + s.enemies.length = ENEMY_COUNT ∧
  (∀ e ∈ s.enemies, 0 ≤ e.attack) ∧
  (s.gameOver = true → s.win = false → s.hero.hp = 0) ∧
  posNodup s.enemies

/-- The full between-actions state invariant: `CoreInv` plus all
`justRetaliated` flags clear whenever the game is still running. -/
def StateInv (s : GameState) : Prop :=
  CoreInv s ∧ (s.gameOver = false → ∀ e ∈ s.enemies, e.justRetaliated = false)

/-- The states of one run: a successful `init()` followed by any sequence
of handled player actions. -/
inductive Reachable : GameState → Prop where
  | init (fuel : Nat) (rng : List Nat) (s : GameState) :
      initGame fuel rng = some s → Reachable s
  | step (a : PlayerAction) (rng : List Nat) {s : GameState} :
      Reachable s → Reachable (handleInput a rng s)

/-- Random stream for a deterministic witness `init()`: zero draws carve
five identical rooms and corridors through row 1 and column 1, then the
hero lands on `(1,1)`, items on `(2,1) … (13,1)` and enemies on
`(14,1) … (23,1)`. -/
def rngInit : List Nat :=
  List.replicate 29 0 ++
    [1, 1,
     2, 1, 3, 1,
     4, 1, 5, 1, 6, 1, 7, 1, 8, 1, 9, 1, 10, 1, 11, 1, 12, 1, 13, 1,
     14, 1, 15, 1, 16, 1, 17, 1, 18, 1, 19, 1, 20, 1, 21, 1, 22, 1, 23, 1]

/-- The witness starting state produced by `initGame` on `rngInit`. -/
def s0 : GameState :=
  (initGame 40 rngInit).getD
    { map := generateMap,
      hero := { x := 0, y := 0, hp := 0, maxHp := 0, attack := 0 },
      enemies := [], potionsCarried := 0, killed := 0,
      gameOver := false, win := false }

/-- Claim C6 — the wrapped move candidate, for the hero and for enemy
steps alike, always lies inside the grid. -/
theorem wrap_inBounds (x y dx dy : Int)
    (hx0 : 0 ≤ x) (hx1 : x < MAP_WIDTH) (hy0 : 0 ≤ y) (hy1 : y < MAP_HEIGHT)
    (hdx : dx.natAbs ≤ 1) (hdy : dy.natAbs ≤ 1) :
    0 ≤ wrapX (x + dx) ∧ wrapX (x + dx) < MAP_WIDTH ∧
      0 ≤ wrapY (y + dy) ∧ wrapY (y + dy) < MAP_HEIGHT := by
  unfold wrapX wrapY MAP_WIDTH MAP_HEIGHT at *
  refine ⟨?_, ?_, ?_, ?_⟩ <;> split <;> omega

/-- Concrete instance of `wrap_inBounds` at the west edge moving west. -/
theorem wrap_inBounds_witness :
    0 ≤ wrapX (0 + (-1)) ∧ wrapX (0 + (-1)) < MAP_WIDTH ∧
      0 ≤ wrapY (5 + 1) ∧ wrapY (5 + 1) < MAP_HEIGHT :=
  wrap_inBounds 0 5 (-1) 1 (by decide) (by decide) (by decide) (by decide)
    (by decide) (by decide)

/-- Claim C8 — a move whose wrapped candidate tile is a wall or is occupied
by an enemy leaves the entire state untouched. -/
theorem blocked_move_noop (dx dy : Int) (s : GameState)
    (h : s.map (wrapY (s.hero.y + dy)) (wrapX (s.hero.x + dx)) = Tile.wall ∨
         s.enemies.any (fun e => e.x == wrapX (s.hero.x + dx) &&
           e.y == wrapY (s.hero.y + dy)) = true) :
    attemptMove dx dy s = s := by
  rcases h with h | h <;> simp [attemptMove, h]

/-- Concrete instance of `blocked_move_noop`: a hero in the corridor moving
north into the wall stays put. -/
theorem blocked_move_noop_witness :
    attemptMove 0 (-1)
      { map := rowGrid,
        hero := { x := 3, y := 5, hp := 10, maxHp := 10, attack := 1 },
        enemies := [], potionsCarried := 0, killed := 0,
        gameOver := false, win := false } =
      { map := rowGrid,
        hero := { x := 3, y := 5, hp := 10, maxHp := 10, attack := 1 },
        enemies := [], potionsCarried := 0, killed := 0,
        gameOver := false, win := false } :=
  blocked_move_noop 0 (-1) _ (Or.inl (by decide))

lemma inCells_iff (e : Enemy) (cs : List (Int × Int)) :
    inCells e cs = true ↔ (e.x, e.y) ∈ cs := by
  simp only [inCells, atCell, List.any_eq_true, Bool.and_eq_true, beq_iff_eq]
  constructor
  · rintro ⟨⟨a, b⟩, hm, h1, h2⟩
    rw [h1, h2]
    exact hm
  · intro h
    exact ⟨(e.x, e.y), h, rfl, rfl⟩

lemma inCells_false (e : Enemy) (cs : List (Int × Int))
    (h : (e.x, e.y) ∉ cs) : inCells e cs = false := by
  cases hb : inCells e cs
  · rfl
  · exact absurd ((inCells_iff e cs).mp hb) h

lemma inCells_cons (e : Enemy) (c : Int × Int) (cs : List (Int × Int)) :
    inCells e (c :: cs) = (atCell e c || inCells e cs) := by
  simp [inCells]

lemma atCell_true_iff (e : Enemy) (c : Int × Int) :
    atCell e c = true ↔ (e.x, e.y) = c := by
  simp [atCell, Prod.ext_iff]

lemma posNodup_cons {e : Enemy} {es : List Enemy} (h : posNodup (e :: es)) :
    (e.x, e.y) ∉ posList es ∧ posNodup es := by
  simpa [posNodup, posList, List.nodup_cons] using h

lemma mem_posList {e : Enemy} {es : List Enemy} (h : e ∈ es) :
    (e.x, e.y) ∈ posList es :=
  List.mem_map.mpr ⟨e, h, rfl⟩

lemma specEnemies_nil (atk : Int) (cs : List (Int × Int)) :
    specEnemies atk cs [] = [] := rfl

lemma specRetal_nil (atk : Int) (cs : List (Int × Int)) :
    specRetal atk cs [] = 0 := rfl

lemma specDead_nil (atk : Int) (cs : List (Int × Int)) :
    specDead atk cs [] = 0 := rfl

lemma specEnemies_cons_notin {e : Enemy} {cs : List (Int × Int)}
    (atk : Int) (es : List Enemy) (h : inCells e cs = false) :
    specEnemies atk cs (e :: es) = e :: specEnemies atk cs es := by
  simp [specEnemies, List.filterMap_cons, h]

lemma specEnemies_cons_surv {e : Enemy} {cs : List (Int × Int)} {atk : Int}
    (es : List Enemy) (h : inCells e cs = true) (hs : 0 < e.hp - atk) :
    specEnemies atk cs (e :: es) = struck atk e :: specEnemies atk cs es := by
  have hs' : atk < e.hp := by omega
  simp [specEnemies, List.filterMap_cons, h, hs']

lemma specEnemies_cons_dead {e : Enemy} {cs : List (Int × Int)} {atk : Int}
    (es : List Enemy) (h : inCells e cs = true) (hs : e.hp - atk ≤ 0) :
    specEnemies atk cs (e :: es) = specEnemies atk cs es := by
  have hs' : ¬ atk < e.hp := by omega
  simp [specEnemies, List.filterMap_cons, h, hs']

lemma specRetal_cons_notin {e : Enemy} {cs : List (Int × Int)}
    (atk : Int) (es : List Enemy) (h : inCells e cs = false) :
    specRetal atk cs (e :: es) = specRetal atk cs es := by
  simp [specRetal, List.filter_cons, h]

lemma specRetal_cons_surv {e : Enemy} {cs : List (Int × Int)} {atk : Int}
    (es : List Enemy) (h : inCells e cs = true) (hs : 0 < e.hp - atk) :
    specRetal atk cs (e :: es) = e.attack + specRetal atk cs es := by
  have hs' : atk < e.hp := by omega
  simp [specRetal, List.filter_cons, h, hs']

lemma specRetal_cons_dead {e : Enemy} {cs : List (Int × Int)} {atk : Int}
    (es : List Enemy) (h : inCells e cs = true) (hs : e.hp - atk ≤ 0) :
    specRetal atk cs (e :: es) = specRetal atk cs es := by
  have hs' : ¬ atk < e.hp := by omega
  simp [specRetal, List.filter_cons, h, hs']

lemma specDead_cons_notin {e : Enemy} {cs : List (Int × Int)}
    (atk : Int) (es : List Enemy) (h : inCells e cs = false) :
    specDead atk cs (e :: es) = specDead atk cs es := by
  simp [specDead, List.filter_cons, h]

lemma specDead_cons_surv {e : Enemy} {cs : List (Int × Int)} {atk : Int}
    (es : List Enemy) (h : inCells e cs = true) (hs : 0 < e.hp - atk) :
    specDead atk cs (e :: es) = specDead atk cs es := by
  have hs' : ¬ e.hp ≤ atk := by omega
  simp [specDead, List.filter_cons, h, hs']

lemma specDead_cons_dead {e : Enemy} {cs : List (Int × Int)} {atk : Int}
    (es : List Enemy) (h : inCells e cs = true) (hs : e.hp - atk ≤ 0) :
    specDead atk cs (e :: es) = specDead atk cs es + 1 := by
  have hs' : e.hp ≤ atk := by omega
  simp [specDead, List.filter_cons, h, hs', List.length_cons]

lemma spec_single_miss (atk : Int) (c : Int × Int) (es : List Enemy)
    (h : ∀ e ∈ es, atCell e c = false) :
    specEnemies atk [c] es = es ∧ specRetal atk [c] es = 0 ∧
      specDead atk [c] es = 0 := by
  induction es with
  | nil => exact ⟨rfl, rfl, rfl⟩
  | cons e rest ih =>
    have he : atCell e c = false := h e (by simp)
    have hin : inCells e [c] = false := by
      simp [inCells, he]
    obtain ⟨h1, h2, h3⟩ := ih (fun e' he' => h e' (by simp [he']))
    exact ⟨by rw [specEnemies_cons_notin _ _ hin, h1],
           by rw [specRetal_cons_notin _ _ hin, h2],
           by rw [specDead_cons_notin _ _ hin, h3]⟩

lemma hitAt_spec (atk tx ty : Int) (es : List Enemy) (hn : posNodup es) :
    hitAt atk tx ty es =
      (specEnemies atk [(tx, ty)] es,
       specRetal atk [(tx, ty)] es,
       specDead atk [(tx, ty)] es) := by
  induction es with
  | nil => rfl
  | cons e rest ih =>
    obtain ⟨hmem, hrest⟩ := posNodup_cons hn
    by_cases hat : e.x = tx ∧ e.y = ty
    · have hrestmiss : ∀ e' ∈ rest, atCell e' (tx, ty) = false := by
        intro e' he'
        cases hb : atCell e' (tx, ty)
        · rfl
        · have hp' : (e'.x, e'.y) = (tx, ty) := (atCell_true_iff _ _).mp hb
          have hpe : (e.x, e.y) = (tx, ty) := by
            rw [hat.1, hat.2]
          exact absurd (by rw [hpe, ← hp']; exact mem_posList he') hmem
      have hin : inCells e [(tx, ty)] = true := by
        simp [inCells, atCell, hat.1, hat.2]
      obtain ⟨g1, g2, g3⟩ := spec_single_miss atk (tx, ty) rest hrestmiss
      by_cases hs : 0 < e.hp - atk
      · simp only [hitAt, if_pos hat, if_pos hs]
        rw [specEnemies_cons_surv _ hin hs, g1,
            specRetal_cons_surv _ hin hs, g2,
            specDead_cons_surv _ hin hs, g3]
        simp
      · have hs' : e.hp - atk ≤ 0 := by omega
        simp only [hitAt, if_pos hat, if_neg hs]
        rw [specEnemies_cons_dead _ hin hs', g1,
            specRetal_cons_dead _ hin hs', g2,
            specDead_cons_dead _ hin hs', g3]
    · have hin : inCells e [(tx, ty)] = false := by
        apply inCells_false
        simp only [List.mem_singleton, Prod.mk.injEq]
        exact fun h1 => hat h1
      simp only [hitAt, if_neg hat]
      rw [ih hrest,
          specEnemies_cons_notin _ _ hin,
          specRetal_cons_notin _ _ hin,
          specDead_cons_notin _ _ hin]

lemma posList_specEnemies_sublist (atk : Int) (cs : List (Int × Int))
    (es : List Enemy) :
    (posList (specEnemies atk cs es)).Sublist (posList es) := by
  induction es with
  | nil => simp [specEnemies, posList]
  | cons e rest ih =>
    by_cases hin : inCells e cs = true
    · by_cases hs : 0 < e.hp - atk
      · rw [specEnemies_cons_surv _ hin hs]
        simp only [posList, List.map_cons]
        exact List.Sublist.cons₂ _ ih
      · rw [specEnemies_cons_dead _ hin (by omega)]
        simp only [posList, List.map_cons]
        exact List.Sublist.cons _ ih
    · rw [specEnemies_cons_notin _ _ (by simpa using hin)]
      simp only [posList, List.map_cons]
      exact List.Sublist.cons₂ _ ih

lemma posNodup_specEnemies (atk : Int) (cs : List (Int × Int))
    {es : List Enemy} (hn : posNodup es) :
    posNodup (specEnemies atk cs es) :=
  List.Nodup.sublist (posList_specEnemies_sublist atk cs es) hn

lemma specEnemies_specEnemies_single (atk : Int) (c : Int × Int)
    (cs : List (Int × Int)) (es : List Enemy) (hc : c ∉ cs) :
    specEnemies atk cs (specEnemies atk [c] es) =
      specEnemies atk (c :: cs) es := by
  induction es with
  | nil => rfl
  | cons e rest ih =>
    by_cases hat : atCell e c = true
    · have hpos : (e.x, e.y) = c := (atCell_true_iff _ _).mp hat
      have hin1 : inCells e [c] = true := by
        simp [inCells, hat]
      have hccs : inCells e (c :: cs) = true := by
        rw [inCells_cons, hat, Bool.true_or]
      by_cases hs : 0 < e.hp - atk
      · have hsin : inCells (struck atk e) cs = false := by
          apply inCells_false
          simpa [struck] using hpos ▸ hc
        rw [specEnemies_cons_surv _ hin1 hs,
            specEnemies_cons_notin _ _ hsin, ih,
            specEnemies_cons_surv _ hccs hs]
      · rw [specEnemies_cons_dead _ hin1 (by omega), ih,
            specEnemies_cons_dead _ hccs (by omega)]
    · have haf : atCell e c = false := by
        simpa using hat
      have hin1 : inCells e [c] = false := by
        simp [inCells, haf]
      have hccs : inCells e (c :: cs) = inCells e cs := by
        rw [inCells_cons, haf, Bool.false_or]
      by_cases hcs : inCells e cs = true
      · by_cases hs : 0 < e.hp - atk
        · rw [specEnemies_cons_notin _ _ hin1,
              specEnemies_cons_surv _ hcs hs, ih,
              specEnemies_cons_surv _ (by rw [hccs]; exact hcs) hs]
        · rw [specEnemies_cons_notin _ _ hin1,
              specEnemies_cons_dead _ hcs (by omega), ih,
              specEnemies_cons_dead _ (by rw [hccs]; exact hcs) (by omega)]
      · have hcsf : inCells e cs = false := by simpa using hcs
        rw [specEnemies_cons_notin _ _ hin1,
            specEnemies_cons_notin _ _ hcsf, ih,
            specEnemies_cons_notin _ _ (by rw [hccs]; exact hcsf)]

lemma specEnemies_nil_cells (atk : Int) (es : List Enemy) :
    specEnemies atk [] es = es := by
  induction es with
  | nil => rfl
  | cons e rest ih => rw [specEnemies_cons_notin _ _ (by simp [inCells]), ih]

lemma specRetal_nil_cells (atk : Int) (es : List Enemy) :
    specRetal atk [] es = 0 := by
  induction es with
  | nil => rfl
  | cons e rest ih => rw [specRetal_cons_notin _ _ (by simp [inCells]), ih]

lemma specDead_nil_cells (atk : Int) (es : List Enemy) :
    specDead atk [] es = 0 := by
  induction es with
  | nil => rfl
  | cons e rest ih => rw [specDead_cons_notin _ _ (by simp [inCells]), ih]

lemma specRetal_specEnemies_single (atk : Int) (c : Int × Int)
    (cs : List (Int × Int)) (es : List Enemy) (hc : c ∉ cs) :
    specRetal atk cs (specEnemies atk [c] es) = specRetal atk cs es := by
  induction es with
  | nil => rfl
  | cons e rest ih =>
    by_cases hat : atCell e c = true
    · have hpos : (e.x, e.y) = c := (atCell_true_iff _ _).mp hat
      have hin1 : inCells e [c] = true := by simp [inCells, hat]
      have hef : inCells e cs = false :=
        inCells_false _ _ (by rw [hpos]; exact hc)
      by_cases hs : 0 < e.hp - atk
      · have hsf : inCells (struck atk e) cs = false := by
          apply inCells_false
          simpa [struck] using (by rw [hpos]; exact hc : (e.x, e.y) ∉ cs)
        rw [specEnemies_cons_surv _ hin1 hs,
            specRetal_cons_notin _ _ hsf, ih,
            specRetal_cons_notin _ _ hef]
      · rw [specEnemies_cons_dead _ hin1 (by omega), ih,
            specRetal_cons_notin _ _ hef]
    · have haf : atCell e c = false := by simpa using hat
      have hin1 : inCells e [c] = false := by simp [inCells, haf]
      rw [specEnemies_cons_notin _ _ hin1]
      by_cases hcs : inCells e cs = true
      · by_cases hs : 0 < e.hp - atk
        · rw [specRetal_cons_surv _ hcs hs, ih, specRetal_cons_surv _ hcs hs]
        · rw [specRetal_cons_dead _ hcs (by omega), ih,
              specRetal_cons_dead _ hcs (by omega)]
      · have hcsf : inCells e cs = false := by simpa using hcs
        rw [specRetal_cons_notin _ _ hcsf, ih, specRetal_cons_notin _ _ hcsf]

lemma specDead_specEnemies_single (atk : Int) (c : Int × Int)
    (cs : List (Int × Int)) (es : List Enemy) (hc : c ∉ cs) :
    specDead atk cs (specEnemies atk [c] es) = specDead atk cs es := by
  induction es with
  | nil => rfl
  | cons e rest ih =>
    by_cases hat : atCell e c = true
    · have hpos : (e.x, e.y) = c := (atCell_true_iff _ _).mp hat
      have hin1 : inCells e [c] = true := by simp [inCells, hat]
      have hef : inCells e cs = false :=
        inCells_false _ _ (by rw [hpos]; exact hc)
      by_cases hs : 0 < e.hp - atk
      · have hsf : inCells (struck atk e) cs = false := by
          apply inCells_false
          simpa [struck] using (by rw [hpos]; exact hc : (e.x, e.y) ∉ cs)
        rw [specEnemies_cons_surv _ hin1 hs,
            specDead_cons_notin _ _ hsf, ih,
            specDead_cons_notin _ _ hef]
      · rw [specEnemies_cons_dead _ hin1 (by omega), ih,
            specDead_cons_notin _ _ hef]
    · have haf : atCell e c = false := by simpa using hat
      have hin1 : inCells e [c] = false := by simp [inCells, haf]
      rw [specEnemies_cons_notin _ _ hin1]
      by_cases hcs : inCells e cs = true
      · by_cases hs : 0 < e.hp - atk
        · rw [specDead_cons_surv _ hcs hs, ih, specDead_cons_surv _ hcs hs]
        · rw [specDead_cons_dead _ hcs (by omega), ih,
              specDead_cons_dead _ hcs (by omega)]
      · have hcsf : inCells e cs = false := by simpa using hcs
        rw [specDead_cons_notin _ _ hcsf, ih, specDead_cons_notin _ _ hcsf]

lemma specRetal_cons_cell (atk : Int) (c : Int × Int)
    (cs : List (Int × Int)) (es : List Enemy) (hc : c ∉ cs) :
    specRetal atk (c :: cs) es = specRetal atk [c] es + specRetal atk cs es := by
  induction es with
  | nil => simp [specRetal]
  | cons e rest ih =>
    by_cases hat : atCell e c = true
    · have hpos : (e.x, e.y) = c := (atCell_true_iff _ _).mp hat
      have hin1 : inCells e [c] = true := by simp [inCells, hat]
      have hccs : inCells e (c :: cs) = true := by
        rw [inCells_cons, hat, Bool.true_or]
      have hef : inCells e cs = false :=
        inCells_false _ _ (by rw [hpos]; exact hc)
      by_cases hs : 0 < e.hp - atk
      · rw [specRetal_cons_surv _ hccs hs, ih, specRetal_cons_surv _ hin1 hs,
            specRetal_cons_notin _ _ hef]
        ring
      · rw [specRetal_cons_dead _ hccs (by omega), ih,
            specRetal_cons_dead _ hin1 (by omega),
            specRetal_cons_notin _ _ hef]
    · have haf : atCell e c = false := by simpa using hat
      have hin1 : inCells e [c] = false := by simp [inCells, haf]
      have hccs : inCells e (c :: cs) = inCells e cs := by
        rw [inCells_cons, haf, Bool.false_or]
      rw [specRetal_cons_notin _ _ hin1]
      by_cases hcs : inCells e cs = true
      · by_cases hs : 0 < e.hp - atk
        · rw [specRetal_cons_surv _ (by rw [hccs]; exact hcs) hs, ih,
              specRetal_cons_surv _ hcs hs]
          ring
        · rw [specRetal_cons_dead _ (by rw [hccs]; exact hcs) (by omega), ih,
              specRetal_cons_dead _ hcs (by omega)]
      · have hcsf : inCells e cs = false := by simpa using hcs
        rw [specRetal_cons_notin _ _ (by rw [hccs]; exact hcsf), ih,
            specRetal_cons_notin _ _ hcsf]

lemma specDead_cons_cell (atk : Int) (c : Int × Int)
    (cs : List (Int × Int)) (es : List Enemy) (hc : c ∉ cs) :
    specDead atk (c :: cs) es = specDead atk [c] es + specDead atk cs es := by
  induction es with
  | nil => simp [specDead]
  | cons e rest ih =>
    by_cases hat : atCell e c = true
    · have hpos : (e.x, e.y) = c := (atCell_true_iff _ _).mp hat
      have hin1 : inCells e [c] = true := by simp [inCells, hat]
      have hccs : inCells e (c :: cs) = true := by
        rw [inCells_cons, hat, Bool.true_or]
      have hef : inCells e cs = false :=
        inCells_false _ _ (by rw [hpos]; exact hc)
      by_cases hs : 0 < e.hp - atk
      · rw [specDead_cons_surv _ hccs hs, ih, specDead_cons_surv _ hin1 hs,
            specDead_cons_notin _ _ hef]
      · rw [specDead_cons_dead _ hccs (by omega), ih,
            specDead_cons_dead _ hin1 (by omega),
            specDead_cons_notin _ _ hef]
        omega
    · have haf : atCell e c = false := by simpa using hat
      have hin1 : inCells e [c] = false := by simp [inCells, haf]
      have hccs : inCells e (c :: cs) = inCells e cs := by
        rw [inCells_cons, haf, Bool.false_or]
      rw [specDead_cons_notin _ _ hin1]
      by_cases hcs : inCells e cs = true
      · by_cases hs : 0 < e.hp - atk
        · rw [specDead_cons_surv _ (by rw [hccs]; exact hcs) hs, ih,
              specDead_cons_surv _ hcs hs]
        · rw [specDead_cons_dead _ (by rw [hccs]; exact hcs) (by omega), ih,
              specDead_cons_dead _ hcs (by omega)]
          omega
      · have hcsf : inCells e cs = false := by simpa using hcs
        rw [specDead_cons_notin _ _ (by rw [hccs]; exact hcsf), ih,
            specDead_cons_notin _ _ hcsf]

lemma foldl_attackStep_spec (ds : List (Int × Int)) (s : GameState)
    (hn : posNodup s.enemies)
    (hnd : (stepCells s.hero ds).Nodup) :
    ds.foldl attackStep s = { s with
      enemies := specEnemies s.hero.attack (stepCells s.hero ds) s.enemies,
      hero := { s.hero with
        hp := s.hero.hp - specRetal s.hero.attack (stepCells s.hero ds) s.enemies },
      killed := s.killed + specDead s.hero.attack (stepCells s.hero ds) s.enemies } := by
  induction ds generalizing s with
  | nil =>
    simp only [List.foldl_nil, stepCells, List.map_nil, specEnemies_nil_cells,
      specRetal_nil_cells, specDead_nil_cells]
    rcases s with ⟨m, ⟨hx0, hy0, hhp0, hmax0, hatk0⟩, es0, pc0, kl0, go0, wi0⟩
    simp
  | cons d ds ih =>
    rw [List.foldl_cons]
    have h1 : attackStep s d = { s with
        enemies := specEnemies s.hero.attack
          [(s.hero.x + d.1, s.hero.y + d.2)] s.enemies,
        hero := { s.hero with
          hp := s.hero.hp -
            specRetal s.hero.attack [(s.hero.x + d.1, s.hero.y + d.2)] s.enemies },
        killed := s.killed +
          specDead s.hero.attack [(s.hero.x + d.1, s.hero.y + d.2)] s.enemies } := by
      unfold attackStep
      rw [hitAt_spec s.hero.attack (s.hero.x + d.1) (s.hero.y + d.2) s.enemies hn]
    simp only [stepCells, List.map_cons, List.nodup_cons] at hnd
    obtain ⟨hcn, hnd'⟩ := hnd
    rw [h1, ih _ (posNodup_specEnemies _ _ hn) (by simpa [stepCells] using hnd')]
    have hE := specEnemies_specEnemies_single s.hero.attack
      (s.hero.x + d.1, s.hero.y + d.2)
      (ds.map fun d' => (s.hero.x + d'.1, s.hero.y + d'.2)) s.enemies hcn
    have hR1 := specRetal_specEnemies_single s.hero.attack
      (s.hero.x + d.1, s.hero.y + d.2)
      (ds.map fun d' => (s.hero.x + d'.1, s.hero.y + d'.2)) s.enemies hcn
    have hR2 := specRetal_cons_cell s.hero.attack
      (s.hero.x + d.1, s.hero.y + d.2)
      (ds.map fun d' => (s.hero.x + d'.1, s.hero.y + d'.2)) s.enemies hcn
    have hD1 := specDead_specEnemies_single s.hero.attack
      (s.hero.x + d.1, s.hero.y + d.2)
      (ds.map fun d' => (s.hero.x + d'.1, s.hero.y + d'.2)) s.enemies hcn
    have hD2 := specDead_cons_cell s.hero.attack
      (s.hero.x + d.1, s.hero.y + d.2)
      (ds.map fun d' => (s.hero.x + d'.1, s.hero.y + d'.2)) s.enemies hcn
    simp only [stepCells, List.map_cons, hE, hR1, hR2, hD1, hD2]
    rcases s with ⟨m, ⟨hx0, hy0, hhp0, hmax0, hatk0⟩, es0, pc0, kl0, go0, wi0⟩
    simp [sub_sub, Nat.add_assoc]

lemma neighborCells_nodup (h : Hero) : (stepCells h dirs).Nodup := by
  simp [stepCells, dirs, Prod.ext_iff]

lemma attackLoop_eq_core (s : GameState) (hn : posNodup s.enemies) :
    attackLoop s = heroAttackSpecCore s := by
  unfold attackLoop heroAttackSpecCore neighborCells
  exact foldl_attackStep_spec dirs s hn (neighborCells_nodup s.hero)

lemma heroAttack_eq_spec_aux (s : GameState) (hn : posNodup s.enemies) :
    heroAttack s = heroAttackSpec s := by
  unfold heroAttack heroAttackSpec
  rw [attackLoop_eq_core s hn]

/-- Claim C7 — the Attack action implemented by `heroAttack` coincides,
for pairwise-distinct enemy positions, with the declarative description in
the spec (`heroAttackSpec`): every adjacent enemy takes `hero.attack`
damage, survivors retaliate exactly once, the dead are removed and counted
with no early exit, and the Won check precedes the Lost check. -/
theorem heroAttack_eq_spec (s : GameState) (hn : posNodup s.enemies) :
    heroAttack s = heroAttackSpec s :=
  heroAttack_eq_spec_aux s hn

/-- Concrete instance of `heroAttack_eq_spec`: a hero flanked by a
survivor (east) and a dying enemy (west). -/
theorem heroAttack_eq_spec_witness :
    heroAttack
      { map := rowGrid,
        hero := { x := 3, y := 5, hp := 10, maxHp := 10, attack := 1 },
        enemies :=
          [{ x := 4, y := 5, hp := 5, maxHp := 5, attack := 1, justRetaliated := false },
           { x := 2, y := 5, hp := 1, maxHp := 5, attack := 1, justRetaliated := false }],
        potionsCarried := 0, killed := 8, gameOver := false, win := false } =
    heroAttackSpec
      { map := rowGrid,
        hero := { x := 3, y := 5, hp := 10, maxHp := 10, attack := 1 },
        enemies :=
          [{ x := 4, y := 5, hp := 5, maxHp := 5, attack := 1, justRetaliated := false },
           { x := 2, y := 5, hp := 1, maxHp := 5, attack := 1, justRetaliated := false }],
        potionsCarried := 0, killed := 8, gameOver := false, win := false } :=
  heroAttack_eq_spec _ (by unfold posNodup posList; decide)

lemma specEnemies_flag_mem (atk : Int) (cs : List (Int × Int)) (es : List Enemy)
    (hflags : ∀ e ∈ es, e.justRetaliated = false) :
    ∀ e' ∈ specEnemies atk cs es, e'.justRetaliated = true → (e'.x, e'.y) ∈ cs := by
  induction es with
  | nil => simp [specEnemies]
  | cons e rest ih =>
    have hfr : ∀ e'' ∈ rest, e''.justRetaliated = false := fun e'' h'' =>
      hflags e'' (by simp [h''])
    by_cases hin : inCells e cs = true
    · by_cases hs : 0 < e.hp - atk
      · rw [specEnemies_cons_surv _ hin hs]
        intro e' he' hf
        rcases List.mem_cons.mp he' with rfl | hmem
        · simpa [struck] using (inCells_iff e cs).mp hin
        · exact ih hfr e' hmem hf
      · rw [specEnemies_cons_dead _ hin (by omega)]
        exact ih hfr
    · rw [specEnemies_cons_notin _ _ (by simpa using hin)]
      intro e' he' hf
      rcases List.mem_cons.mp he' with rfl | hmem
      · exact absurd hf (by simp [hflags e' (by simp)])
      · exact ih hfr e' hmem hf

lemma heroAttack_enemies_eq (s : GameState) (hn : posNodup s.enemies) :
    (heroAttack s).enemies =
      specEnemies s.hero.attack (neighborCells s.hero) s.enemies := by
  have hL : (heroAttack s).enemies = (attackLoop s).enemies := by
    unfold heroAttack winGame endGame
    split
    · rfl
    · split <;> rfl
  rw [hL, attackLoop_eq_core s hn]
  rfl

lemma enemyTurnStep_flagged (t : GameState) (rng : List Nat) (i : Nat)
    (h : i < t.enemies.length)
    (hflag : (t.enemies.get ⟨i, h⟩).justRetaliated = true) :
    enemyTurnStep t i rng =
      (clearFlagAt t i (t.enemies.get ⟨i, h⟩), rng, false) := by
  have hget : t.enemies[i]? = some (t.enemies.get ⟨i, h⟩) := by
    rw [List.getElem?_eq_getElem h]
    simp [List.get_eq_getElem]
  have hflag2 : t.enemies[i].justRetaliated = true := by
    simpa [List.get_eq_getElem] using hflag
  unfold enemyTurnStep clearFlagAt
  rw [hget]
  simp [hflag2, List.get_eq_getElem]

/-- Claim C5 — an enemy that retaliated during the hero's Attack (it is
exactly the flagged survivors) stands on an attacked neighbour cell, and
its following enemy-turn iteration does nothing but clear the flag: no
second attack on the hero, no movement, no halt of the sweep. -/
theorem retaliator_skips_enemy_turn (s : GameState) (rng : List Nat) (i : Nat)
    (hn : posNodup s.enemies)
    (hflags : ∀ e ∈ s.enemies, e.justRetaliated = false)
    (h : i < (heroAttack s).enemies.length)
    (hflag : ((heroAttack s).enemies.get ⟨i, h⟩).justRetaliated = true) :
    (((heroAttack s).enemies.get ⟨i, h⟩).x,
     ((heroAttack s).enemies.get ⟨i, h⟩).y) ∈ neighborCells s.hero ∧
    enemyTurnStep (heroAttack s) i rng =
      (clearFlagAt (heroAttack s) i ((heroAttack s).enemies.get ⟨i, h⟩),
       rng, false) := by
  constructor
  · have hmem : (heroAttack s).enemies.get ⟨i, h⟩ ∈ (heroAttack s).enemies :=
      List.get_mem _ _ _
    set a := (heroAttack s).enemies.get ⟨i, h⟩ with ha
    rw [heroAttack_enemies_eq s hn] at hmem
    exact specEnemies_flag_mem _ _ _ hflags a hmem hflag
  · exact enemyTurnStep_flagged _ rng i h hflag

lemma sW_len : 0 < (heroAttack sW).enemies.length := by decide

/-- Concrete instance of `retaliator_skips_enemy_turn`: the surviving
enemy east of the hero retaliates, and its enemy-turn iteration only
clears the flag. -/
theorem retaliator_skips_enemy_turn_witness :
    (((heroAttack sW).enemies.get ⟨0, sW_len⟩).x,
     ((heroAttack sW).enemies.get ⟨0, sW_len⟩).y) ∈ neighborCells sW.hero ∧
    enemyTurnStep (heroAttack sW) 0 [] =
      (clearFlagAt (heroAttack sW) 0 ((heroAttack sW).enemies.get ⟨0, sW_len⟩),
       [], false) :=
  retaliator_skips_enemy_turn sW [] 0 (by unfold posNodup posList; decide)
    (by decide) sW_len (by decide)

/-- Claim C2 (amended part) — once the game is over, any subsequent call
of `handleInput` (any Move or Attack) returns the state unchanged. -/
theorem terminal_state_frozen (a : PlayerAction) (rng : List Nat)
    (s : GameState) (h : s.gameOver = true) : handleInput a rng s = s := by
  unfold handleInput
  rw [if_pos h]

/-- Concrete instance of `terminal_state_frozen` on a won state. -/
theorem terminal_state_frozen_witness :
    handleInput PlayerAction.attack [] (winGame sC2) = winGame sC2 :=
  terminal_state_frozen _ _ _ rfl

/-- Claim C2 (counterexample) — the terminal transition is not the end of
the action: moving east kills the hero (the state is already Lost after
`attemptMove`), yet the enemy sweep of the same `handleInput` call still
mutates the enemy list (the distant enemy walks west). -/
theorem terminal_midaction_mutation :
    (attemptMove 1 0 sC2).gameOver = true ∧
    (attemptMove 1 0 sC2).win = false ∧
    (handleInput (PlayerAction.move Dir.right) [1] sC2).enemies ≠
      (attemptMove 1 0 sC2).enemies := by
  refine ⟨by decide, by decide, by decide⟩

lemma hitAt_miss (atk tx ty : Int) (es : List Enemy)
    (h : ∀ e ∈ es, ¬(e.x = tx ∧ e.y = ty)) :
    hitAt atk tx ty es = (es, 0, 0) := by
  induction es with
  | nil => rfl
  | cons e rest ih =>
    simp only [hitAt, if_neg (h e (by simp))]
    rw [ih (fun e' he' => h e' (by simp [he']))]

lemma adjDamageStep_no_enemy (s : GameState) (d : Int × Int)
    (h : ∀ e ∈ s.enemies, ¬(e.x = s.hero.x + d.1 ∧ e.y = s.hero.y + d.2)) :
    adjDamageStep s d = s := by
  unfold adjDamageStep
  have hf : s.enemies.find?
      (fun e => e.x == s.hero.x + d.1 && e.y == s.hero.y + d.2) = none := by
    rw [List.find?_eq_none]
    intro e he
    simp only [Bool.and_eq_true, beq_iff_eq]
    exact h e he
  rw [hf]

lemma attackStep_no_enemy (s : GameState) (d : Int × Int)
    (h : ∀ e ∈ s.enemies, ¬(e.x = s.hero.x + d.1 ∧ e.y = s.hero.y + d.2)) :
    attackStep s d = s := by
  unfold attackStep
  rw [hitAt_miss _ _ _ _ h]
  rcases s with ⟨m, ⟨a, b, c, dd, f⟩, es, pc, kl, go, wi⟩
  simp

/-- Claim C9 — adjacency never wraps although movement does: for a hero on
the west edge and an enemy on the east edge of the same row, the enemy is
on none of the four attack/damage neighbour cells, the enemy-turn
adjacency test is false, a hero Attack and the move-time adjacency damage
both leave the state untouched, and the enemy's own sweep iteration never
touches the hero — yet a single west Move of the hero wraps exactly onto
the enemy's column. -/
theorem adjacency_no_wrap (s : GameState) (e : Enemy) (rng : List Nat)
    (henem : s.enemies = [e])
    (hx : s.hero.x = 0) (hex : e.x = MAP_WIDTH - 1) (hey : e.y = s.hero.y)
    (hef : e.justRetaliated = false)
    (hhp : 0 < s.hero.hp) (hkilled : s.killed < ENEMY_COUNT) :
    (e.x, e.y) ∉ neighborCells s.hero ∧
    ¬ enemyAdjacent e s.hero ∧
    wrapX (s.hero.x + (-1)) = e.x ∧
    adjacentEnemyDamage s = s ∧
    heroAttack s = s ∧
    (enemyTurnStep s 0 rng).1.hero = s.hero := by
  have hadj : ¬ enemyAdjacent e s.hero := by
    unfold enemyAdjacent
    rw [hex, hx, hey, MAP_WIDTH]
    omega
  have hmiss : ∀ d : Int × Int, d ∈ dirs →
      ∀ e' ∈ s.enemies, ¬(e'.x = s.hero.x + d.1 ∧ e'.y = s.hero.y + d.2) := by
    intro d hd e' he'
    rw [henem, List.mem_singleton] at he'
    subst he'
    simp only [dirs, List.mem_cons, List.not_mem_nil, or_false] at hd
    rcases hd with rfl | rfl | rfl | rfl <;>
      · rw [hex, hx, hey, MAP_WIDTH]
        intro hc
        omega
  have hA := adjDamageStep_no_enemy s (-1, 0) (hmiss _ (by simp [dirs]))
  have hB := adjDamageStep_no_enemy s (1, 0) (hmiss _ (by simp [dirs]))
  have hC := adjDamageStep_no_enemy s (0, -1) (hmiss _ (by simp [dirs]))
  have hD := adjDamageStep_no_enemy s (0, 1) (hmiss _ (by simp [dirs]))
  have hA2 := attackStep_no_enemy s (-1, 0) (hmiss _ (by simp [dirs]))
  have hB2 := attackStep_no_enemy s (1, 0) (hmiss _ (by simp [dirs]))
  have hC2 := attackStep_no_enemy s (0, -1) (hmiss _ (by simp [dirs]))
  have hD2 := attackStep_no_enemy s (0, 1) (hmiss _ (by simp [dirs]))
  refine ⟨?_, hadj, ?_, ?_, ?_, ?_⟩
  · simp only [neighborCells, stepCells, dirs, List.map_cons, List.map_nil,
      List.mem_cons, List.not_mem_nil, or_false, Prod.mk.injEq, hex, hey, hx,
      MAP_WIDTH]
    omega
  · rw [hx, hex, MAP_WIDTH]
    decide
  · have hloop : adjLoop s = s := by
      simp only [adjLoop, dirs, List.foldl_cons, List.foldl_nil, hA, hB, hC, hD]
    unfold adjacentEnemyDamage
    rw [hloop, if_neg (by omega)]
  · have hloop : attackLoop s = s := by
      simp only [attackLoop, dirs, List.foldl_cons, List.foldl_nil,
        hA2, hB2, hC2, hD2]
    have hc1 : ¬(s.enemies.length = 0 ∨ ENEMY_COUNT ≤ s.killed) := by
      rw [henem]
      simp only [List.length_singleton]
      omega
    have hc2 : ¬ s.hero.hp ≤ 0 := by omega
    unfold heroAttack
    rw [hloop, if_neg hc1, if_neg hc2]
  · have hget : s.enemies[0]? = some e := by rw [henem]; rfl
    unfold enemyTurnStep
    rw [hget]
    dsimp only
    rw [if_neg (by simp [hef]), if_neg hadj]
    split
    · split
      · rfl
      · rfl
    · rfl

/-- Concrete instance of `adjacency_no_wrap` at row 7. -/
theorem adjacency_no_wrap_witness :
    (e9.x, e9.y) ∉ neighborCells s9.hero ∧
    ¬ enemyAdjacent e9 s9.hero ∧
    wrapX (s9.hero.x + (-1)) = e9.x ∧
    adjacentEnemyDamage s9 = s9 ∧
    heroAttack s9 = s9 ∧
    (enemyTurnStep s9 0 []).1.hero = s9.hero :=
  adjacency_no_wrap s9 e9 [] rfl rfl (by decide) rfl rfl (by decide) (by decide)

lemma randInt_le (lo hi r : Nat) (h : lo ≤ hi) : randInt lo hi r ≤ hi := by
  unfold randInt
  have h2 : r % (hi + 1 - lo) < hi + 1 - lo := Nat.mod_lt _ (by omega)
  omega

lemma randInt_lo (lo hi r : Nat) : lo ≤ randInt lo hi r := by
  unfold randInt
  omega

lemma setT_ne (g : Grid) (y0 x0 : Int) (t : Tile) (y x : Int)
    (h : ¬(y = y0 ∧ x = x0)) : setT g y0 x0 t y x = g y x := by
  unfold setT
  rw [if_neg h]

lemma foldl_setT_ne (ps : List (Nat × Nat)) (g : Grid) (y x : Int)
    (h : ∀ p ∈ ps, ¬(y = (p.2 : Int) ∧ x = (p.1 : Int))) :
    (ps.foldl (fun g' p => setT g' (p.2 : Int) (p.1 : Int) Tile.empty) g) y x =
      g y x := by
  induction ps generalizing g with
  | nil => rfl
  | cons p rest ih =>
    rw [List.foldl_cons, ih _ (fun q hq => h q (by simp [hq]))]
    exact setT_ne _ _ _ _ _ _ (h p (by simp))

lemma rectPoints_bounds (x y w h : Nat) :
    ∀ p ∈ rectPoints x y w h,
      x ≤ p.1 ∧ p.1 < x + w ∧ y ≤ p.2 ∧ p.2 < y + h := by
  intro p hp
  simp only [rectPoints, List.mem_flatMap, List.mem_map, List.mem_range] at hp
  obtain ⟨ry, hry, rx, hrx, rfl⟩ := hp
  simp
  omega

lemma placeRoom_outside (g : Grid) (rng : List Nat) (x y : Int)
    (hout : x < 1 ∨ MAP_WIDTH - 2 < x ∨ y < 1 ∨ MAP_HEIGHT - 2 < y) :
    (placeRoom g rng).1 y x = g y x := by
  have hWnat : MAP_WIDTH.toNat = 40 := rfl
  have hHnat : MAP_HEIGHT.toNat = 24 := rfl
  have hRM : ROOM_MAX = 8 := rfl
  have hRm : ROOM_MIN = 3 := rfl
  have hWI : MAP_WIDTH = (40 : Int) := rfl
  have hHI : MAP_HEIGHT = (24 : Int) := rfl
  unfold placeRoom carveRect
  apply foldl_setT_ne
  intro p hp
  have hb := rectPoints_bounds _ _ _ _ p hp
  have hw2 := randInt_le ROOM_MIN ROOM_MAX (takeRand rng).1 (by decide)
  have hh2 := randInt_le ROOM_MIN ROOM_MAX (takeRand (takeRand rng).2).1 (by decide)
  have hx2 := randInt_le 1
    (MAP_WIDTH.toNat - randInt ROOM_MIN ROOM_MAX (takeRand rng).1 - 2)
    (takeRand (takeRand (takeRand rng).2).2).1 (by omega)
  have hx1 := randInt_lo 1
    (MAP_WIDTH.toNat - randInt ROOM_MIN ROOM_MAX (takeRand rng).1 - 2)
    (takeRand (takeRand (takeRand rng).2).2).1
  have hy2 := randInt_le 1
    (MAP_HEIGHT.toNat - randInt ROOM_MIN ROOM_MAX (takeRand (takeRand rng).2).1 - 2)
    (takeRand (takeRand (takeRand (takeRand rng).2).2).2).1 (by omega)
  have hy1 := randInt_lo 1
    (MAP_HEIGHT.toNat - randInt ROOM_MIN ROOM_MAX (takeRand (takeRand rng).2).1 - 2)
    (takeRand (takeRand (takeRand (takeRand rng).2).2).2).1
  intro hc
  obtain ⟨hcy, hcx⟩ := hc
  omega

lemma placeRoomsAux_outside (n : Nat) (g : Grid) (rs : List Room)
    (rng : List Nat) (x y : Int)
    (hout : x < 1 ∨ MAP_WIDTH - 2 < x ∨ y < 1 ∨ MAP_HEIGHT - 2 < y) :
    (placeRoomsAux n g rs rng).1 y x = g y x := by
  induction n generalizing g rs rng with
  | zero => rfl
  | succ n ih =>
    rw [show placeRoomsAux (n + 1) g rs rng =
        placeRoomsAux n (placeRoom g rng).1 (rs ++ [(placeRoom g rng).2.1])
          (placeRoom g rng).2.2 from rfl]
    rw [ih _ _ _]
    exact placeRoom_outside g rng x y hout

lemma placeRooms_outside (rng : List Nat) (x y : Int)
    (hout : x < 1 ∨ MAP_WIDTH - 2 < x ∨ y < 1 ∨ MAP_HEIGHT - 2 < y) :
    (placeRooms generateMap rng).1 y x = Tile.wall := by
  unfold placeRooms
  rw [placeRoomsAux_outside _ _ _ _ _ _ hout]
  rfl

/-- Claim C10 — every cell carved to Empty by `placeRooms` (from the
all-wall `generateMap`) lies strictly inside the grid with a 1-tile wall
margin on every side; border cells are never carved by rooms. -/
theorem room_carving_interior (rng : List Nat) (x y : Int)
    (hcarved : (placeRooms generateMap rng).1 y x = Tile.empty) :
    1 ≤ x ∧ x ≤ MAP_WIDTH - 2 ∧ 1 ≤ y ∧ y ≤ MAP_HEIGHT - 2 := by
  by_contra hnb
  have hout : x < 1 ∨ MAP_WIDTH - 2 < x ∨ y < 1 ∨ MAP_HEIGHT - 2 < y := by
    omega
  rw [placeRooms_outside rng x y hout] at hcarved
  exact absurd hcarved (by decide)

/-- Concrete instance of `room_carving_interior`: with an all-zero random
stream the first room is carved at `(1,1)`. -/
theorem room_carving_interior_witness :
    (1 : Int) ≤ 1 ∧ (1 : Int) ≤ MAP_WIDTH - 2 ∧
      (1 : Int) ≤ 1 ∧ (1 : Int) ≤ MAP_HEIGHT - 2 :=
  room_carving_interior [] 1 1 (by decide)

lemma tileCount_setT_other (g : Grid) (t t' : Tile) (x y : Nat)
    (hold : g (y : Int) (x : Int) ≠ t') (hnew : t ≠ t') :
    tileCount (setT g (y : Int) (x : Int) t) t' = tileCount g t' := by
  unfold tileCount
  congr 1
  apply Finset.filter_congr
  intro p hp
  simp only [setT]
  split_ifs with hcell
  · obtain ⟨h1, h2⟩ := hcell
    have hy : p.1 = y := by exact_mod_cast h1
    have hx : p.2 = x := by exact_mod_cast h2
    rw [← hy, ← hx] at hold
    simp [hnew, hold]
  · rfl

lemma tileCount_setT (g : Grid) (t : Tile) (x y : Nat)
    (hx : x < MAP_WIDTH.toNat) (hy : y < MAP_HEIGHT.toNat)
    (hold : g (y : Int) (x : Int) ≠ t) :
    tileCount (setT g (y : Int) (x : Int) t) t = tileCount g t + 1 := by
  unfold tileCount
  have hmem : (y, x) ∈ Finset.product (Finset.range MAP_HEIGHT.toNat)
      (Finset.range MAP_WIDTH.toNat) :=
    Finset.mem_product.mpr ⟨Finset.mem_range.mpr hy, Finset.mem_range.mpr hx⟩
  have hset : Finset.filter
      (fun p : Nat × Nat => setT g (y : Int) (x : Int) t (p.1 : Int) (p.2 : Int) = t)
      (Finset.product (Finset.range MAP_HEIGHT.toNat)
        (Finset.range MAP_WIDTH.toNat)) =
      insert (y, x) (Finset.filter
        (fun p : Nat × Nat => g (p.1 : Int) (p.2 : Int) = t)
        (Finset.product (Finset.range MAP_HEIGHT.toNat)
          (Finset.range MAP_WIDTH.toNat))) := by
    ext p
    simp only [Finset.mem_filter, Finset.mem_insert, setT]
    constructor
    · rintro ⟨hpm, hpv⟩
      by_cases hcell : (p.1 : Int) = (y : Int) ∧ (p.2 : Int) = (x : Int)
      · left
        obtain ⟨h1, h2⟩ := hcell
        have hy1 : p.1 = y := by exact_mod_cast h1
        have hx1 : p.2 = x := by exact_mod_cast h2
        cases p
        simp_all
      · right
        rw [if_neg hcell] at hpv
        exact ⟨hpm, hpv⟩
    · rintro (rfl | ⟨hpm, hpv⟩)
      · exact ⟨hmem, by simp⟩
      · refine ⟨hpm, ?_⟩
        by_cases hcell : (p.1 : Int) = (y : Int) ∧ (p.2 : Int) = (x : Int)
        · obtain ⟨h1, h2⟩ := hcell
          have hy1 : p.1 = y := by exact_mod_cast h1
          have hx1 : p.2 = x := by exact_mod_cast h2
          rw [hy1, hx1] at hpv
          exact absurd hpv hold
        · rw [if_neg hcell]
          exact hpv
  rw [hset, Finset.card_insert_of_not_mem]
  simp only [Finset.mem_filter, not_and]
  intro hm
  exact hold

lemma placeLoop_count (t : Tile) (ht : t ≠ Tile.empty) (hx hy : Int) :
    ∀ (fuel need : Nat) (g : Grid) (rng : List Nat) (g' : Grid) (rng' : List Nat),
      placeLoop t hx hy need g fuel rng = some (g', rng') →
      tileCount g' t = tileCount g t + need := by
  intro fuel
  induction fuel with
  | zero =>
    intro need g rng g' rng' h
    cases need with
    | zero =>
      simp only [placeLoop, Option.some.injEq, Prod.mk.injEq] at h
      rw [h.1]
      omega
    | succ m => exact absurd h (by simp [placeLoop])
  | succ fuel ih =>
    intro need g rng g' rng' h
    cases need with
    | zero =>
      simp only [placeLoop, Option.some.injEq, Prod.mk.injEq] at h
      rw [h.1]
      omega
    | succ m =>
      rw [placeLoop] at h
      split at h
      · rename_i hcond
        have hrec := ih m _ _ g' rng' h
        have hxb : randInt 0 (MAP_WIDTH.toNat - 1) (takeRand rng).1
            < MAP_WIDTH.toNat := by
          have := randInt_le 0 (MAP_WIDTH.toNat - 1) (takeRand rng).1
            (by rw [show MAP_WIDTH.toNat = 40 from rfl]; omega)
          rw [show MAP_WIDTH.toNat = 40 from rfl] at this ⊢
          omega
        have hyb : randInt 0 (MAP_HEIGHT.toNat - 1) (takeRand (takeRand rng).2).1
            < MAP_HEIGHT.toNat := by
          have := randInt_le 0 (MAP_HEIGHT.toNat - 1) (takeRand (takeRand rng).2).1
            (by rw [show MAP_HEIGHT.toNat = 24 from rfl]; omega)
          rw [show MAP_HEIGHT.toNat = 24 from rfl] at this ⊢
          omega
        rw [hrec, tileCount_setT g t _ _ hxb hyb (by rw [hcond.1]; exact Ne.symm ht)]
        omega
      · exact ih _ _ _ g' rng' h

lemma placeLoop_other (t t' : Tile) (hne : t ≠ t') (ht' : t' ≠ Tile.empty)
    (hx hy : Int) :
    ∀ (fuel need : Nat) (g : Grid) (rng : List Nat) (g' : Grid) (rng' : List Nat),
      placeLoop t hx hy need g fuel rng = some (g', rng') →
      tileCount g' t' = tileCount g t' := by
  intro fuel
  induction fuel with
  | zero =>
    intro need g rng g' rng' h
    cases need with
    | zero =>
      simp only [placeLoop, Option.some.injEq, Prod.mk.injEq] at h
      rw [h.1]
    | succ m => exact absurd h (by simp [placeLoop])
  | succ fuel ih =>
    intro need g rng g' rng' h
    cases need with
    | zero =>
      simp only [placeLoop, Option.some.injEq, Prod.mk.injEq] at h
      rw [h.1]
    | succ m =>
      rw [placeLoop] at h
      split at h
      · rename_i hcond
        rw [ih m _ _ g' rng' h,
            tileCount_setT_other g t t' _ _ (by rw [hcond.1]; exact Ne.symm ht') hne]
      · exact ih _ _ _ g' rng' h

/-- Claim C1 — `placeItems` always adds exactly 2 sword tiles and exactly
10 potion tiles to the grid (against the configured `SWORD_COUNT = 1`
and `POTION_COUNT = 2`), each on a previously empty non-hero cell. -/
theorem placeItems_counts (g : Grid) (hx hy : Int) (fuel : Nat)
    (rng : List Nat) (g' : Grid) (rng' : List Nat)
    (h : placeItems g hx hy fuel rng = some (g', rng')) :
    tileCount g' Tile.sword = tileCount g Tile.sword + 2 ∧
    tileCount g' Tile.potion = tileCount g Tile.potion + 10 := by
  unfold placeItems at h
  split at h
  · exact absurd h (by simp)
  · rename_i p hs
    constructor
    · rw [placeLoop_other Tile.potion Tile.sword (by decide) (by decide) hx hy
          fuel 10 p.1 p.2 g' rng' h]
      exact placeLoop_count Tile.sword (by decide) hx hy fuel 2 g rng p.1 p.2 hs
    · rw [placeLoop_count Tile.potion (by decide) hx hy fuel 10 p.1 p.2 g' rng' h,
          placeLoop_other Tile.sword Tile.potion (by decide) (by decide) hx hy
            fuel 2 g rng p.1 p.2 hs]

/-- Concrete instance of `placeItems_counts` on an all-empty grid. -/
theorem placeItems_counts_witness :
    tileCount pC1.1 Tile.sword = tileCount gC1 Tile.sword + 2 ∧
    tileCount pC1.1 Tile.potion = tileCount gC1 Tile.potion + 10 :=
  placeItems_counts gC1 0 0 20 rngC1 pC1.1 pC1.2 (by rfl)

lemma set_self_of_getElem {α : Type} (l : List α) (i : Nat) (p : α)
    (h : l[i]? = some p) : l.set i p = l := by
  induction l generalizing i with
  | nil => rfl
  | cons a t ih =>
    cases i with
    | zero =>
      simp only [List.getElem?_cons_zero, Option.some.injEq] at h
      rw [← h]
      rfl
    | succ n =>
      simp only [List.getElem?_cons_succ] at h
      rw [show (a :: t).set (n + 1) p = a :: t.set n p from rfl, ih n h]

lemma posNodup_concat (es : List Enemy) (e : Enemy)
    (h : (e.x, e.y) ∉ posList es) (hn : posNodup es) : posNodup (es ++ [e]) := by
  unfold posNodup at *
  rw [show posList (es ++ [e]) = posList es ++ [(e.x, e.y)] by simp [posList]]
  simp [List.nodup_append, hn, h]

lemma enemyAt_false (es : List Enemy) (x y : Int) (h : enemyAt es x y = false) :
    (x, y) ∉ posList es := by
  intro hm
  rw [posList, List.mem_map] at hm
  obtain ⟨e, he, hpe⟩ := hm
  unfold enemyAt at h
  rw [List.any_eq_false] at h
  apply h e he
  simp only [Prod.mk.injEq] at hpe
  simp [hpe.1, hpe.2]

lemma placeHero_spec (g : Grid) :
    ∀ (fuel : Nat) (rng : List Nat) (h : Hero) (rng' : List Nat),
      placeHero g fuel rng = some (h, rng') →
      h.hp = HERO_HP ∧ h.maxHp = HERO_HP := by
  intro fuel
  induction fuel with
  | zero =>
    intro rng h rng' hh
    exact absurd hh (by simp [placeHero])
  | succ fuel ih =>
    intro rng h rng' hh
    rw [placeHero] at hh
    split at hh
    · simp only [Option.some.injEq, Prod.mk.injEq] at hh
      rw [← hh.1]
      exact ⟨rfl, rfl⟩
    · exact ih _ _ _ hh

lemma placeEnemiesLoop_spec (g : Grid) (hx hy : Int) :
    ∀ (fuel need : Nat) (acc : List Enemy) (rng : List Nat)
      (es : List Enemy) (rng' : List Nat),
      placeEnemiesLoop g hx hy need acc fuel rng = some (es, rng') →
      es.length = acc.length + need ∧
      (∀ e ∈ es, e ∈ acc ∨ (e.attack = ENEMY_ATTACK ∧ e.justRetaliated = false)) ∧
      (posNodup acc → posNodup es) := by
  intro fuel
  induction fuel with
  | zero =>
    intro need acc rng es rng' h
    cases need with
    | zero =>
      simp only [placeEnemiesLoop, Option.some.injEq, Prod.mk.injEq] at h
      rw [← h.1]
      exact ⟨by omega, fun e he => Or.inl he, fun hn => hn⟩
    | succ m => exact absurd h (by simp [placeEnemiesLoop])
  | succ fuel ih =>
    intro need acc rng es rng' h
    cases need with
    | zero =>
      simp only [placeEnemiesLoop, Option.some.injEq, Prod.mk.injEq] at h
      rw [← h.1]
      exact ⟨by omega, fun e he => Or.inl he, fun hn => hn⟩
    | succ m =>
      rw [placeEnemiesLoop] at h
      split at h
      · rename_i hcond
        obtain ⟨hlen, hmem, hnd⟩ := ih m _ _ es rng' h
        refine ⟨by simp at hlen; omega, ?_, ?_⟩
        · intro e he
          rcases hmem e he with hacc | hprops
          · rcases List.mem_append.mp hacc with hin | hnew
            · exact Or.inl hin
            · rw [List.mem_singleton] at hnew
              rw [hnew]
              exact Or.inr ⟨rfl, rfl⟩
          · exact Or.inr hprops
        · intro hnacc
          apply hnd
          exact posNodup_concat _ _ (enemyAt_false _ _ _ hcond.2.2) hnacc
      · exact ih _ _ _ es rng' h

lemma initGame_inv (fuel : Nat) (rng : List Nat) (s : GameState)
    (h : initGame fuel rng = some s) : StateInv s := by
  unfold initGame at h
  dsimp only at h
  split at h
  · exact absurd h (by simp)
  · rename_i ph hph
    split at h
    · exact absurd h (by simp)
    · rename_i pi hpi
      split at h
      · exact absurd h (by simp)
      · rename_i pe hpe
        simp only [Option.some.injEq] at h
        obtain ⟨hhp, hmax⟩ := placeHero_spec _ fuel _ ph.1 ph.2 hph
        obtain ⟨hlen, hmem, hnd⟩ :=
          placeEnemiesLoop_spec _ _ _ fuel ENEMY_COUNT [] _ pe.1 pe.2 hpe
        rw [← h]
        refine ⟨⟨?_, ?_, ?_, ?_, ?_, ?_⟩, ?_⟩
        · show 0 ≤ ph.1.hp
          rw [hhp]
          decide
        · show ph.1.hp ≤ ph.1.maxHp
          rw [hhp, hmax]
        · show 0 + pe.1.length = ENEMY_COUNT
          simp only [List.length_nil] at hlen
          omega
        · intro e he
          rcases hmem e he with hacc | hprops
          · exact absurd hacc (List.not_mem_nil e)
          · rw [hprops.1]
            decide
        · intro hgo
          simp at hgo
        · show posNodup pe.1
          apply hnd
          unfold posNodup posList
          simp
        · intro _ e he
          rcases hmem e he with hacc | hprops
          · exact absurd hacc (List.not_mem_nil e)
          · exact hprops.2

lemma specEnemies_length (atk : Int) (cs : List (Int × Int)) (es : List Enemy) :
    (specEnemies atk cs es).length + specDead atk cs es = es.length := by
  induction es with
  | nil => rfl
  | cons e rest ih =>
    by_cases hin : inCells e cs = true
    · by_cases hs : 0 < e.hp - atk
      · rw [specEnemies_cons_surv _ hin hs, specDead_cons_surv _ hin hs]
        simp only [List.length_cons]
        omega
      · rw [specEnemies_cons_dead _ hin (by omega), specDead_cons_dead _ hin (by omega)]
        simp only [List.length_cons]
        omega
    · rw [specEnemies_cons_notin _ _ (by simpa using hin),
          specDead_cons_notin _ _ (by simpa using hin)]
      simp only [List.length_cons]
      omega

lemma specEnemies_attack_nonneg (atk : Int) (cs : List (Int × Int))
    (es : List Enemy) (hatk : ∀ e ∈ es, 0 ≤ e.attack) :
    ∀ e' ∈ specEnemies atk cs es, 0 ≤ e'.attack := by
  induction es with
  | nil => simp [specEnemies]
  | cons e rest ih =>
    have hr : ∀ e'' ∈ rest, 0 ≤ e''.attack := fun e'' h'' => hatk e'' (by simp [h''])
    by_cases hin : inCells e cs = true
    · by_cases hs : 0 < e.hp - atk
      · rw [specEnemies_cons_surv _ hin hs]
        intro e' he'
        rcases List.mem_cons.mp he' with rfl | hmem
        · exact hatk e (by simp)
        · exact ih hr e' hmem
      · rw [specEnemies_cons_dead _ hin (by omega)]
        exact ih hr
    · rw [specEnemies_cons_notin _ _ (by simpa using hin)]
      intro e' he'
      rcases List.mem_cons.mp he' with rfl | hmem
      · exact hatk e' (by simp)
      · exact ih hr e' hmem

lemma specRetal_nonneg (atk : Int) (cs : List (Int × Int)) (es : List Enemy)
    (hatk : ∀ e ∈ es, 0 ≤ e.attack) : 0 ≤ specRetal atk cs es := by
  induction es with
  | nil => simp [specRetal]
  | cons e rest ih =>
    have hr : ∀ e'' ∈ rest, 0 ≤ e''.attack := fun e'' h'' => hatk e'' (by simp [h''])
    by_cases hin : inCells e cs = true
    · by_cases hs : 0 < e.hp - atk
      · rw [specRetal_cons_surv _ hin hs]
        have := hatk e (by simp)
        have := ih hr
        omega
      · rw [specRetal_cons_dead _ hin (by omega)]
        exact ih hr
    · rw [specRetal_cons_notin _ _ (by simpa using hin)]
      exact ih hr

lemma specRetal_eq_zero_of_nil (atk : Int) (cs : List (Int × Int))
    (es : List Enemy) (h : specEnemies atk cs es = []) :
    specRetal atk cs es = 0 := by
  induction es with
  | nil => rfl
  | cons e rest ih =>
    by_cases hin : inCells e cs = true
    · by_cases hs : 0 < e.hp - atk
      · rw [specEnemies_cons_surv _ hin hs] at h
        exact absurd h (by simp)
      · rw [specEnemies_cons_dead _ hin (by omega)] at h
        rw [specRetal_cons_dead _ hin (by omega)]
        exact ih h
    · rw [specEnemies_cons_notin _ _ (by simpa using hin)] at h
      exact absurd h (by simp)

lemma foldl_adjDamage_spec (ds : List (Int × Int)) (s : GameState)
    (hatk : ∀ e ∈ s.enemies, 0 ≤ e.attack) :
    ∃ D : Int, 0 ≤ D ∧
      ds.foldl adjDamageStep s =
        { s with hero := { s.hero with hp := s.hero.hp - D } } := by
  induction ds generalizing s with
  | nil =>
    refine ⟨0, le_refl 0, ?_⟩
    rcases s with ⟨m, ⟨a, b, c, d, f⟩, es, pc, kl, go, wi⟩
    simp
  | cons d ds ih =>
    rw [List.foldl_cons]
    cases hf : s.enemies.find?
        (fun e => e.x == s.hero.x + d.1 && e.y == s.hero.y + d.2) with
    | none =>
      have hstep : adjDamageStep s d = s := by
        unfold adjDamageStep
        rw [hf]
      rw [hstep]
      exact ih s hatk
    | some en =>
      have hen : en ∈ s.enemies := List.mem_of_find?_eq_some hf
      have hstep : adjDamageStep s d =
          { s with hero := { s.hero with hp := s.hero.hp - en.attack } } := by
        unfold adjDamageStep
        rw [hf]
      rw [hstep]
      obtain ⟨D, hD, heq⟩ :=
        ih { s with hero := { s.hero with hp := s.hero.hp - en.attack } }
          (by simpa using hatk)
      rw [heq]
      refine ⟨en.attack + D, by have := hatk en hen; omega, ?_⟩
      rcases s with ⟨m, ⟨a, b, c, dd, f⟩, es, pc, kl, go, wi⟩
      simp [sub_sub]

lemma endGame_coreInv (s : GameState) (hmax : 0 ≤ s.hero.maxHp)
    (h3 : s.killed + s.enemies.length = ENEMY_COUNT)
    (h4 : ∀ e ∈ s.enemies, 0 ≤ e.attack)
    (h6 : posNodup s.enemies) : CoreInv (endGame s) :=
  ⟨le_refl 0, hmax, h3, h4, fun _ _ => rfl, h6⟩

lemma adjacentEnemyDamage_coreInv (s : GameState) (hinv : CoreInv s) :
    CoreInv (adjacentEnemyDamage s) := by
  obtain ⟨h1, h2, h3, h4, h5, h6⟩ := hinv
  obtain ⟨D, hD, heq⟩ := foldl_adjDamage_spec dirs s h4
  unfold adjacentEnemyDamage adjLoop
  rw [heq]
  split
  · exact endGame_coreInv _ (by show 0 ≤ s.hero.maxHp; omega) h3 h4 h6
  · rename_i hpos
    have hpos' : ¬ s.hero.hp - D ≤ 0 := hpos
    refine ⟨by show 0 ≤ s.hero.hp - D; omega,
            by show s.hero.hp - D ≤ s.hero.maxHp; omega, h3, h4, ?_, h6⟩
    intro hgo hw
    have hgo' : s.gameOver = true := hgo
    have hw' : s.win = false := hw
    have := h5 hgo' hw'
    show s.hero.hp - D = 0
    omega

lemma checkPickup_coreInv (s : GameState) (hgo : s.gameOver = false)
    (hinv : CoreInv s) :
    CoreInv (checkPickup s) ∧ (checkPickup s).gameOver = false ∧
      (checkPickup s).enemies = s.enemies := by
  obtain ⟨h1, h2, h3, h4, h5, h6⟩ := hinv
  unfold checkPickup
  dsimp only
  split
  · refine ⟨⟨?_, ?_, h3, h4, ?_, h6⟩, hgo, rfl⟩
    · show 0 ≤ min s.hero.maxHp (s.hero.hp + POTION_COUNT)
      rw [POTION_COUNT]
      apply le_min <;> omega
    · show min s.hero.maxHp (s.hero.hp + POTION_COUNT) ≤ s.hero.maxHp
      exact min_le_left _ _
    · intro hgo' hw
      exact absurd hgo' (by simp [hgo])
  · split
    · refine ⟨⟨h1, h2, h3, h4, ?_, h6⟩, hgo, rfl⟩
      intro hgo' hw
      exact absurd hgo' (by simp [hgo])
    · exact ⟨⟨h1, h2, h3, h4, h5, h6⟩, hgo, rfl⟩

lemma attemptMove_coreInv (dx dy : Int) (s : GameState)
    (hgo : s.gameOver = false) (hinv : CoreInv s) :
    CoreInv (attemptMove dx dy s) := by
  obtain ⟨h1, h2, h3, h4, h5, h6⟩ := hinv
  unfold attemptMove
  dsimp only
  split
  · exact ⟨h1, h2, h3, h4, h5, h6⟩
  · split
    · exact ⟨h1, h2, h3, h4, h5, h6⟩
    · apply adjacentEnemyDamage_coreInv
      have hinv1 : CoreInv { s with hero := { s.hero with
          x := wrapX (s.hero.x + dx), y := wrapY (s.hero.y + dy) } } :=
        ⟨h1, h2, h3, h4, fun hg hw => h5 hg hw, h6⟩
      exact (checkPickup_coreInv
        { s with hero := { s.hero with
            x := wrapX (s.hero.x + dx), y := wrapY (s.hero.y + dy) } }
        hgo hinv1).1

lemma foldl_adjDamage_enemies (ds : List (Int × Int)) (s : GameState) :
    (ds.foldl adjDamageStep s).enemies = s.enemies := by
  induction ds generalizing s with
  | nil => rfl
  | cons d ds ih =>
    rw [List.foldl_cons, ih]
    unfold adjDamageStep
    split <;> rfl

lemma adjLoop_enemies (s : GameState) : (adjLoop s).enemies = s.enemies :=
  foldl_adjDamage_enemies dirs s

lemma checkPickup_enemies (s : GameState) :
    (checkPickup s).enemies = s.enemies := by
  unfold checkPickup
  dsimp only
  split
  · rfl
  · split <;> rfl

lemma adjacentEnemyDamage_enemies (s : GameState) :
    (adjacentEnemyDamage s).enemies = s.enemies := by
  unfold adjacentEnemyDamage
  split
  · show (endGame (adjLoop s)).enemies = s.enemies
    unfold endGame
    show (adjLoop s).enemies = s.enemies
    exact adjLoop_enemies s
  · exact adjLoop_enemies s

lemma attemptMove_enemies (dx dy : Int) (s : GameState) :
    (attemptMove dx dy s).enemies = s.enemies := by
  unfold attemptMove
  dsimp only
  split
  · rfl
  · split
    · rfl
    · rw [adjacentEnemyDamage_enemies, checkPickup_enemies]

lemma heroAttack_coreInv (s : GameState) (hgo : s.gameOver = false)
    (hinv : CoreInv s) : CoreInv (heroAttack s) := by
  obtain ⟨h1, h2, h3, h4, h5, h6⟩ := hinv
  have hlen := specEnemies_length s.hero.attack (neighborCells s.hero) s.enemies
  have hret := specRetal_nonneg s.hero.attack (neighborCells s.hero) s.enemies h4
  have hatk' := specEnemies_attack_nonneg s.hero.attack (neighborCells s.hero)
    s.enemies h4
  have hnd' := posNodup_specEnemies s.hero.attack (neighborCells s.hero) h6
  unfold heroAttack
  rw [attackLoop_eq_core s h6]
  split
  · rename_i hwin
    have hwin' : (specEnemies s.hero.attack (neighborCells s.hero)
        s.enemies).length = 0 ∨
        ENEMY_COUNT ≤ s.killed + specDead s.hero.attack (neighborCells s.hero)
          s.enemies := hwin
    have hnil : specEnemies s.hero.attack (neighborCells s.hero) s.enemies = [] := by
      rcases hwin' with h0 | hk
      · exact List.length_eq_zero.mp h0
      · exact List.length_eq_zero.mp (by omega)
    have hr0 := specRetal_eq_zero_of_nil s.hero.attack (neighborCells s.hero)
      s.enemies hnil
    refine ⟨?_, ?_, ?_, hatk', ?_, hnd'⟩
    · show 0 ≤ s.hero.hp -
        specRetal s.hero.attack (neighborCells s.hero) s.enemies
      omega
    · show s.hero.hp -
        specRetal s.hero.attack (neighborCells s.hero) s.enemies ≤ s.hero.maxHp
      omega
    · show (s.killed + specDead s.hero.attack (neighborCells s.hero) s.enemies) +
        (specEnemies s.hero.attack (neighborCells s.hero) s.enemies).length =
          ENEMY_COUNT
      omega
    · intro _ hw
      exact absurd hw (by simp [winGame])
  · split
    · apply endGame_coreInv
      · show 0 ≤ s.hero.maxHp
        omega
      · show (s.killed + specDead s.hero.attack (neighborCells s.hero) s.enemies) +
          (specEnemies s.hero.attack (neighborCells s.hero) s.enemies).length =
            ENEMY_COUNT
        omega
      · exact hatk'
      · exact hnd'
    · rename_i hnwin hnlost
      have hnlost' : ¬ s.hero.hp -
          specRetal s.hero.attack (neighborCells s.hero) s.enemies ≤ 0 := hnlost
      refine ⟨?_, ?_, ?_, hatk', ?_, hnd'⟩
      · show 0 ≤ s.hero.hp -
          specRetal s.hero.attack (neighborCells s.hero) s.enemies
        omega
      · show s.hero.hp -
          specRetal s.hero.attack (neighborCells s.hero) s.enemies ≤ s.hero.maxHp
        omega
      · show (s.killed + specDead s.hero.attack (neighborCells s.hero) s.enemies) +
          (specEnemies s.hero.attack (neighborCells s.hero) s.enemies).length =
            ENEMY_COUNT
        omega
      · intro hgo' hw
        have hkk : s.gameOver = true := hgo'
        rw [hgo] at hkk
        exact absurd hkk (by decide)

lemma posList_set (es : List Enemy) (i : Nat) (e : Enemy) :
    posList (es.set i e) = (posList es).set i (e.x, e.y) := by
  unfold posList
  exact List.map_set ..

lemma posNodup_set_same (es : List Enemy) (i : Nat) (e e' : Enemy)
    (hget : es[i]? = some e) (hx : e'.x = e.x) (hy : e'.y = e.y)
    (hn : posNodup es) : posNodup (es.set i e') := by
  unfold posNodup
  rw [posList_set, hx, hy, set_self_of_getElem]
  · exact hn
  · unfold posList
    rw [List.getElem?_map, hget]
    rfl

lemma nodup_set_of_ne {α : Type} [DecidableEq α] :
    ∀ (l : List α) (i : Nat) (p : α),
      (∀ j q, j ≠ i → l[j]? = some q → q ≠ p) → l.Nodup → (l.set i p).Nodup := by
  intro l
  induction l with
  | nil => intro i p _ _; simp
  | cons a t ih =>
    intro i p h hn
    rw [List.nodup_cons] at hn
    cases i with
    | zero =>
      rw [show (a :: t).set 0 p = p :: t from rfl, List.nodup_cons]
      constructor
      · intro hmem
        obtain ⟨j, hj⟩ := List.mem_iff_getElem?.mp hmem
        exact h (j + 1) p (by omega) (by simpa using hj) rfl
      · exact hn.2
    | succ n =>
      rw [show (a :: t).set (n + 1) p = a :: t.set n p from rfl, List.nodup_cons]
      constructor
      · intro hmem
        rcases List.mem_or_eq_of_mem_set hmem with hmem' | rfl
        · exact hn.1 hmem'
        · exact h 0 a (by omega) (by simp) rfl
      · exact ih n p (fun j q hj hq => h (j + 1) q (by omega) (by simpa using hq))
          hn.2

lemma someOtherAt_false_spec (nx ny : Int) :
    ∀ (es : List Enemy) (j0 skip : Nat),
      someOtherAt es j0 skip nx ny = false →
      ∀ k e, es[k]? = some e → j0 + k ≠ skip → ¬(e.x = nx ∧ e.y = ny) := by
  intro es
  induction es with
  | nil =>
    intro j0 skip _ k e hk
    simp at hk
  | cons a t ih =>
    intro j0 skip h k e hk hne
    rw [show someOtherAt (a :: t) j0 skip nx ny =
        ((decide (j0 ≠ skip) && a.x == nx && a.y == ny) ||
          someOtherAt t (j0 + 1) skip nx ny) from rfl,
      Bool.or_eq_false_iff] at h
    cases k with
    | zero =>
      simp only [List.getElem?_cons_zero, Option.some.injEq] at hk
      rw [← hk]
      intro hc
      have : (decide (j0 ≠ skip) && a.x == nx && a.y == ny) = true := by
        simp [hc.1, hc.2]
        omega
      rw [h.1] at this
      exact absurd this (by decide)
    | succ m =>
      simp only [List.getElem?_cons_succ] at hk
      exact ih (j0 + 1) skip h.2 m e hk (by omega)

lemma enemyTurnStep_halt_gameOver (s : GameState) (i : Nat) (rng : List Nat) :
    (enemyTurnStep s i rng).2.2 = false ∨
      ((enemyTurnStep s i rng).2.2 = true ∧
        (enemyTurnStep s i rng).1.gameOver = true) := by
  unfold enemyTurnStep
  split
  · exact Or.inl rfl
  · split
    · exact Or.inl rfl
    · split
      · split
        · exact Or.inr ⟨rfl, rfl⟩
        · exact Or.inl rfl
      · dsimp only
        split
        · split
          · exact Or.inl rfl
          · exact Or.inl rfl
        · exact Or.inl rfl

lemma enemyTurnStep_length (s : GameState) (i : Nat) (rng : List Nat) :
    (enemyTurnStep s i rng).1.enemies.length = s.enemies.length := by
  unfold enemyTurnStep
  split
  · rfl
  · split
    · simp
    · split
      · split
        · show (endGame _).enemies.length = s.enemies.length
          rfl
        · rfl
      · dsimp only
        split
        · split
          · simp
          · rfl
        · rfl

lemma enemyTurnStep_enemies_ne (s : GameState) (i : Nat) (rng : List Nat)
    (j : Nat) (hne : j ≠ i) :
    (enemyTurnStep s i rng).1.enemies[j]? = s.enemies[j]? := by
  unfold enemyTurnStep
  split
  · rfl
  · split
    · show (s.enemies.set i _)[j]? = s.enemies[j]?
      exact List.getElem?_set_ne (fun h => hne h.symm)
    · split
      · split
        · rfl
        · rfl
      · dsimp only
        split
        · split
          · show (s.enemies.set i _)[j]? = s.enemies[j]?
            exact List.getElem?_set_ne (fun h => hne h.symm)
          · rfl
        · rfl

lemma enemyTurnStep_flag_i (s : GameState) (i : Nat) (rng : List Nat)
    (e0 : Enemy) (hget : s.enemies[i]? = some e0) :
    ∃ e', (enemyTurnStep s i rng).1.enemies[i]? = some e' ∧
      e'.justRetaliated = false := by
  have hlt : i < s.enemies.length := (List.getElem?_eq_some.mp hget).1
  unfold enemyTurnStep
  split
  · rename_i hnone
    rw [hget] at hnone
    exact absurd hnone (by simp)
  · rename_i e hsome
    have he : e0 = e := by
      rw [hget] at hsome
      simp only [Option.some.injEq] at hsome
      exact hsome
    split
    · refine ⟨{ e with justRetaliated := false }, ?_, rfl⟩
      show (s.enemies.set i _)[i]? = _
      exact List.getElem?_set_self (by simpa using hlt)
    · rename_i hnf
      have hf : e.justRetaliated = false := by simpa using hnf
      split
      · split
        · exact ⟨e, by rw [← he]; exact hget, hf⟩
        · exact ⟨e, by rw [← he]; exact hget, hf⟩
      · dsimp only
        split
        · split
          · refine ⟨{ e with
                x := wrapX (e.x + (moves.getD (randInt 0 4 (takeRand rng).1) (0, 0)).1),
                y := wrapY (e.y + (moves.getD (randInt 0 4 (takeRand rng).1) (0, 0)).2) },
              ?_, hf⟩
            show (s.enemies.set i _)[i]? = _
            exact List.getElem?_set_self (by simpa using hlt)
          · exact ⟨e, by rw [← he]; exact hget, hf⟩
        · exact ⟨e, by rw [← he]; exact hget, hf⟩

lemma enemyTurnStep_coreInv (s : GameState) (i : Nat) (rng : List Nat)
    (hinv : CoreInv s) : CoreInv (enemyTurnStep s i rng).1 := by
  obtain ⟨h1, h2, h3, h4, h5, h6⟩ := hinv
  unfold enemyTurnStep
  split
  · exact ⟨h1, h2, h3, h4, h5, h6⟩
  · rename_i e hget
    have hmem : e ∈ s.enemies := List.mem_iff_getElem?.mpr ⟨i, hget⟩
    split
    · refine ⟨h1, h2, ?_, ?_, h5, ?_⟩
      · show s.killed + (s.enemies.set i _).length = ENEMY_COUNT
        simp only [List.length_set]
        exact h3
      · intro e' he'
        rcases List.mem_or_eq_of_mem_set he' with hmem' | rfl
        · exact h4 e' hmem'
        · exact h4 e hmem
      · exact posNodup_set_same _ _ _ _ hget rfl rfl h6
    · rename_i hnf
      split
      · split
        · exact endGame_coreInv _ (by show 0 ≤ s.hero.maxHp; omega) h3 h4 h6
        · rename_i hsur
          have hsur' : ¬ s.hero.hp - e.attack ≤ 0 := hsur
          have hea := h4 e hmem
          refine ⟨by show 0 ≤ s.hero.hp - e.attack; omega,
                  by show s.hero.hp - e.attack ≤ s.hero.maxHp; omega,
                  h3, h4, ?_, h6⟩
          intro hgo hw
          have hgo' : s.gameOver = true := hgo
          have hw' : s.win = false := hw
          have h0 := h5 hgo' hw'
          show s.hero.hp - e.attack = 0
          omega
      · dsimp only
        split
        · split
          · rename_i hmv hcond
            refine ⟨h1, h2, ?_, ?_, h5, ?_⟩
            · show s.killed + (s.enemies.set i _).length = ENEMY_COUNT
              simp only [List.length_set]
              exact h3
            · intro e' he'
              rcases List.mem_or_eq_of_mem_set he' with hmem' | rfl
              · exact h4 e' hmem'
              · exact h4 e hmem
            · show posNodup (s.enemies.set i _)
              unfold posNodup
              rw [posList_set]
              apply nodup_set_of_ne
              · intro j q hj hq
                unfold posList at hq
                rw [List.getElem?_map] at hq
                cases hej : s.enemies[j]? with
                | none =>
                  rw [hej] at hq
                  exact absurd hq (by simp)
                | some ej =>
                  have hq' : (ej.x, ej.y) = q := by
                    rw [hej] at hq
                    exact Option.some.inj hq
                  rw [← hq']
                  intro hpair
                  rw [Prod.mk.injEq] at hpair
                  exact someOtherAt_false_spec _ _ s.enemies 0 i hcond.2.2 j ej hej
                    (by omega) hpair
              · exact h6
          · exact ⟨h1, h2, h3, h4, h5, h6⟩
        · exact ⟨h1, h2, h3, h4, h5, h6⟩

lemma updateEnemiesAux_coreInv :
    ∀ (n i : Nat) (rng : List Nat) (s : GameState),
      CoreInv s → CoreInv (updateEnemiesAux n i rng s) := by
  intro n
  induction n with
  | zero => exact fun i rng s h => h
  | succ n ih =>
    intro i rng s h
    rw [updateEnemiesAux]
    split
    · exact enemyTurnStep_coreInv s i rng h
    · exact ih _ _ _ (enemyTurnStep_coreInv s i rng h)

lemma updateEnemiesAux_flags :
    ∀ (n i : Nat) (rng : List Nat) (s : GameState),
      i + n = s.enemies.length →
      (∀ j e', j < i → s.enemies[j]? = some e' → e'.justRetaliated = false) →
      (updateEnemiesAux n i rng s).gameOver = false →
      ∀ e ∈ (updateEnemiesAux n i rng s).enemies, e.justRetaliated = false := by
  intro n
  induction n with
  | zero =>
    intro i rng s hlen hpre hgo e he
    obtain ⟨j, hj⟩ := List.mem_iff_getElem?.mp he
    have hjl : j < s.enemies.length := (List.getElem?_eq_some.mp hj).1
    exact hpre j e (by omega) hj
  | succ n ih =>
    intro i rng s hlen hpre hgo e he
    by_cases hhalt : (enemyTurnStep s i rng).2.2 = true
    · rw [updateEnemiesAux, if_pos hhalt] at hgo he
      rcases enemyTurnStep_halt_gameOver s i rng with hna | hg
      · rw [hhalt] at hna
        exact absurd hna (by decide)
      · rw [hg.2] at hgo
        exact absurd hgo (by decide)
    · have hhalt' : (enemyTurnStep s i rng).2.2 = false := by simpa using hhalt
      rw [updateEnemiesAux, if_neg (by simp [hhalt'])] at hgo he
      refine ih (i + 1) _ _ ?_ ?_ hgo e he
      · rw [enemyTurnStep_length]
        omega
      · intro j e' hji hj
        by_cases hji' : j = i
        · subst hji'
          have hjl : j < s.enemies.length := by omega
          obtain ⟨e'', hge'', hf⟩ := enemyTurnStep_flag_i s j rng s.enemies[j]
            (List.getElem?_eq_getElem hjl)
          rw [hge''] at hj
          have : e' = e'' := by
            simp only [Option.some.injEq] at hj
            exact hj.symm
          rw [this]
          exact hf
        · rw [enemyTurnStep_enemies_ne s i rng j hji'] at hj
          exact hpre j e' (by omega) hj

lemma updateEnemies_inv (rng : List Nat) (s : GameState) (hinv : CoreInv s)
    (hflags : ∀ j e', j < 0 → s.enemies[j]? = some e' →
      e'.justRetaliated = false) :
    StateInv (updateEnemies rng s) := by
  unfold updateEnemies
  constructor
  · exact updateEnemiesAux_coreInv _ _ _ _ hinv
  · intro hgo
    exact updateEnemiesAux_flags s.enemies.length 0 rng s (by omega) hflags hgo

lemma handleInput_inv (a : PlayerAction) (rng : List Nat) (s : GameState)
    (hinv : StateInv s) : StateInv (handleInput a rng s) := by
  obtain ⟨hc, hflags⟩ := hinv
  unfold handleInput
  split
  · exact ⟨hc, hflags⟩
  · rename_i hgo
    have hgo' : s.gameOver = false := by simpa using hgo
    split
    · rename_i d
      apply updateEnemies_inv
      · exact attemptMove_coreInv _ _ _ hgo' hc
      · intro j e' hj
        omega
    · apply updateEnemies_inv
      · exact heroAttack_coreInv _ hgo' hc
      · intro j e' hj
        omega

lemma reachable_inv (s : GameState) (h : Reachable s) : StateInv s := by
  induction h with
  | init fuel rng s hinit => exact initGame_inv fuel rng s hinit
  | step a rng hre ih => exact handleInput_inv a rng _ ih

set_option maxHeartbeats 4000000 in
lemma initGame_s0 : initGame 40 rngInit = some s0 := by
  have h : (initGame 40 rngInit).isSome = true := by decide
  unfold s0
  cases hx : initGame 40 rngInit with
  | none =>
    rw [hx] at h
    exact absurd h (by decide)
  | some v => rfl

/-- Claim C3 — after any player action from a reachable state, the hero's
hp lies in `[0, maxHp]`, and on a Lost game it is exactly 0: healing is
clamped at `maxHp` and lethal damage is clamped at 0 by `endGame`. -/
theorem hp_clamped_after_action (s : GameState) (hre : Reachable s)
    (a : PlayerAction) (rng : List Nat) :
    0 ≤ (handleInput a rng s).hero.hp ∧
    (handleInput a rng s).hero.hp ≤ (handleInput a rng s).hero.maxHp ∧
    ((handleInput a rng s).gameOver = true →
      (handleInput a rng s).win = false →
      (handleInput a rng s).hero.hp = 0) := by
  have h := handleInput_inv a rng s (reachable_inv s hre)
  exact ⟨h.1.1, h.1.2.1, h.1.2.2.2.2.1⟩

/-- Concrete instance of `hp_clamped_after_action` on a freshly
initialised game. -/
theorem hp_clamped_after_action_witness :
    0 ≤ (handleInput PlayerAction.attack [] s0).hero.hp ∧
    (handleInput PlayerAction.attack [] s0).hero.hp ≤
      (handleInput PlayerAction.attack [] s0).hero.maxHp ∧
    ((handleInput PlayerAction.attack [] s0).gameOver = true →
      (handleInput PlayerAction.attack [] s0).win = false →
      (handleInput PlayerAction.attack [] s0).hero.hp = 0) :=
  hp_clamped_after_action s0 (Reachable.init 40 rngInit s0 initGame_s0)
    PlayerAction.attack []

/-- Claim C4 — in every reachable state of one run, `killed` plus the
number of surviving enemies equals the configured `ENEMY_COUNT`: `killed`
starts at 0 with `ENEMY_COUNT` enemies placed and each removal moves one
unit from the enemy list to `killed`. -/
theorem kill_accounting (s : GameState) (hre : Reachable s) :
    s.killed + s.enemies.length = ENEMY_COUNT :=
  (reachable_inv s hre).1.2.2.1

/-- Concrete instance of `kill_accounting` on a freshly initialised game. -/
theorem kill_accounting_witness :
    s0.killed + s0.enemies.length = ENEMY_COUNT :=
  kill_accounting s0 (Reachable.init 40 rngInit s0 initGame_s0)
